import Mathlib

/-!
Verification of the solid-tasks library (src/task.ts, src/job.ts, src/work.ts).

The embedding models the synchronous state transitions of a `Task` and of a
`Job` exactly as the source performs them.  Asynchronous continuations
(the settlement of the underlying operation promise, and the delivery of the
abort rejection through the race in `work`) are modelled as explicit events
that can be delivered at any later point of a trace.

Values are modelled as `String` (the type parameter `T` is irrelevant to the
control flow); errors distinguish the `TaskAbortError` class from application
errors, which is the only distinction the source ever makes.
-/

namespace SolidTasks

/-- TaskStatus enum of src/task.ts. -/
inductive TStatus
  | idle
  | pending
  | fulfilled
  | rejected
  | aborted
deriving DecidableEq, Repr

/-- Errors observed by a Task: `TaskAbortError` (carrying the cancel reason)
versus any other application error (abstracted by a numeric code). -/
inductive Err
  | taskAbort (reason : String)
  | app (code : Nat)
deriving DecidableEq, Repr

/-- The `error instanceof TaskAbortError` test of src/task.ts. -/
def Err.isTaskAbort : Err → Bool
  | .taskAbort _ => true
  | .app _ => false

/-- State of one Task (src/task.ts).  Besides the reactive fields
(`status`, `value`, `error`) it records the AbortController signal, the
memoization of `#promise`, how many times the operation factory has been
invoked, and — for the single once-registered listener per event kind that a
Job installs via `#instrumentTask` — how many times each event kind was
dispatched on the EventTarget and how many times it was actually delivered
to that listener. -/
structure TaskState where
  status : TStatus := .idle
  value : Option String := none
  error : Option Err := none
  signalAborted : Bool := false
  signalReason : Option Err := none
  memoized : Bool := false
  factoryCalls : Nat := 0
  abortDispatches : Nat := 0
  fulfillDispatches : Nat := 0
  rejectDispatches : Nat := 0
  abortListenerActive : Bool := false
  fulfillListenerActive : Bool := false
  rejectListenerActive : Bool := false
  deliveredAbort : Nat := 0
  deliveredFulfill : Nat := 0
  deliveredReject : Nat := 0
deriving DecidableEq, Repr

/-- Task.isSettled (src/task.ts): `[Fulfilled, Rejected].includes(status)`. -/
def isSettledT (t : TaskState) : Bool :=
  [TStatus.fulfilled, TStatus.rejected].contains t.status

/-- Task.isAborted (src/task.ts). -/
def isAbortedT (t : TaskState) : Bool :=
  t.status = TStatus.aborted

/-- EventTarget dispatch of an "abort" event.  The Job's abort listener is
registered with `once: true` (src/task.ts addEventListener), so it is removed
after its first delivery. -/
def dispatchAbort (t : TaskState) : TaskState :=
  if t.abortListenerActive then
    { t with abortDispatches := t.abortDispatches + 1
             deliveredAbort := t.deliveredAbort + 1
             abortListenerActive := false }
  else
    { t with abortDispatches := t.abortDispatches + 1 }

/-- EventTarget dispatch of a "fulfill" event, `once: true` listener. -/
def dispatchFulfill (t : TaskState) : TaskState :=
  if t.fulfillListenerActive then
    { t with fulfillDispatches := t.fulfillDispatches + 1
             deliveredFulfill := t.deliveredFulfill + 1
             fulfillListenerActive := false }
  else
    { t with fulfillDispatches := t.fulfillDispatches + 1 }

/-- EventTarget dispatch of a "reject" event, `once: true` listener. -/
def dispatchReject (t : TaskState) : TaskState :=
  if t.rejectListenerActive then
    { t with rejectDispatches := t.rejectDispatches + 1
             deliveredReject := t.deliveredReject + 1
             rejectListenerActive := false }
  else
    { t with rejectDispatches := t.rejectDispatches + 1 }

/-- Task.#handleFailure (src/task.ts): record the error, then branch on
`error instanceof TaskAbortError` to set Aborted or Rejected and dispatch
the matching event. -/
def handleFailureT (e : Err) (t : TaskState) : TaskState :=
  let t1 := { t with error := some e }
  if e.isTaskAbort then
    dispatchAbort { t1 with status := .aborted }
  else
    dispatchReject { t1 with status := .rejected }

/-- Task.#handleSuccess (src/task.ts): record the value, set Fulfilled,
dispatch "fulfill". -/
def handleSuccessT (v : String) (t : TaskState) : TaskState :=
  dispatchFulfill { t with value := some v, status := .fulfilled }

/-- AbortController.abort: fires the signal at most once (a second call is a
no-op and keeps the first reason).  Firing the signal also removes the
"fulfill" and "reject" listeners, which src/task.ts registers with
`signal: this.signal`. -/
def fireSignal (e : Err) (t : TaskState) : TaskState :=
  if t.signalAborted then t
  else
    { t with signalAborted := true
             signalReason := some e
             fulfillListenerActive := false
             rejectListenerActive := false }

/-- The default cancel reason of Task.abort. -/
def defaultReason : String := "The task was aborted."

/-- The synchronous part of Task.abort (src/task.ts lines 174-189): return
early unless Idle or Pending; fire the signal with a fresh TaskAbortError;
when Idle, run #handleFailure immediately (nothing is pending to await). -/
def abortRequestT (reason : String) (t : TaskState) : TaskState :=
  if t.status ≠ .idle ∧ t.status ≠ .pending then t
  else
    let e := Err.taskAbort reason
    let t1 := fireSignal e t
    if t1.status = .idle then handleFailureT e t1 else t1

/-- Task.#execute together with the synchronous prefix of Task.#resolve
(src/task.ts lines 194-216): memoize `#promise` on the first call and return
the same handle afterwards; `throwIfAborted` before anything else (the catch
then runs #handleFailure with the signal reason and the factory is never
invoked); otherwise set Pending and invoke the operation factory. -/
def executeT (t : TaskState) : TaskState :=
  if t.memoized then t
  else
    let t1 := { t with memoized := true }
    if t1.signalAborted then
      handleFailureT (t1.signalReason.getD (Err.taskAbort defaultReason)) t1
    else
      { t1 with status := .pending, factoryCalls := t1.factoryCalls + 1 }

/-- Asynchronous continuation of Task.#resolve when the operation promise
settles and its continuation runs before the Task's signal has fired: the
race in `work` locks to the operation's own outcome and #handleSuccess /
#handleFailure runs.  If the signal fired before the operation settled, the
race is already locked to the abort rejection and the operation's outcome
is discarded (that continuation is `abortSettleT`).  This event models
settlement and continuation as one atomic step; the source has one further
interleaving — the operation settles first, locking the race to its
outcome, but `abort()` fires the signal before the continuation microtask
runs, so the Task still fulfills/rejects while its signal-scoped
fulfill/reject listeners have already been removed — which is modelled
directly by composing `fireSignal` with `handleSuccessT`/`handleFailureT`
(see the C8 theorem): it delivers no fulfill/reject notification. -/
def opSettleT (outcome : Except Err String) (t : TaskState) : TaskState :=
  if t.status = .pending ∧ t.signalAborted = false then
    match outcome with
    | .ok v => handleSuccessT v t
    | .error e => handleFailureT e t
  else t

/-- Asynchronous continuation of Task.#resolve when the abort rejection wins
the race in `work`: the await throws the signal reason and the catch runs
#handleFailure with it. -/
def abortSettleT (t : TaskState) : TaskState :=
  if t.status = .pending ∧ t.signalAborted = true then
    handleFailureT (t.signalReason.getD (Err.taskAbort defaultReason)) t
  else t

/-- The awaited tail of Task.abort (src/task.ts lines 181-188): `try { await
this.#promise } catch (error) { if (error instanceof TaskAbortError) return;
throw error }`.  `promiseOutcome` is the eventual settlement of the memoized
`#promise` (`none` when no promise was ever memoized, in which case awaiting
`undefined` resolves).  The result is `none` when abort's returned promise
resolves, and `some e` when it rejects with `e`. -/
def abortAwaitT (t : TaskState) (promiseOutcome : Option (Except Err String)) :
    Option Err :=
  if t.status ≠ .idle ∧ t.status ≠ .pending then none
  else
    match promiseOutcome with
    | none => none
    | some (.ok _) => none
    | some (.error e) => if e.isTaskAbort then none else some e

/-- A freshly created Task with the three Job instrumentation listeners
registered (src/job.ts #instrumentTask runs right after createTask). -/
def instrumentedTask : TaskState :=
  { abortListenerActive := true
    fulfillListenerActive := true
    rejectListenerActive := true }

/-- A freshly created standalone Task (no listeners registered). -/
def freshTask : TaskState := {}

/-- JobStatus enum of src/job.ts. -/
inductive JStatus
  | idle
  | pending
deriving DecidableEq, Repr

/-- JobMode of src/job.ts. -/
inductive JobMode
  | drop
  | restart
deriving DecidableEq, Repr

/-- The reactive state of a Job (src/job.ts ReactiveState); the `last*`
slots hold indices into the system's task list. -/
structure JobState where
  mode : JobMode
  status : JStatus := .idle
  performCount : Nat := 0
  lastPending : Option Nat := none
  lastFulfilled : Option Nat := none
  lastRejected : Option Nat := none
  lastSettled : Option Nat := none
  lastAborted : Option Nat := none
deriving DecidableEq, Repr

/-- A Job together with every Task it has created, in creation order. -/
structure Sys where
  job : JobState
  tasks : List TaskState
deriving DecidableEq, Repr

/-- The "fulfill" listener body of Job.#instrumentTask (src/job.ts). -/
def jobOnFulfill (tid : Nat) (j : JobState) : JobState :=
  let j1 := { j with lastFulfilled := some tid, lastSettled := some tid }
  if j1.lastPending = some tid then
    { j1 with lastPending := none, status := .idle }
  else j1

/-- The "reject" listener body of Job.#instrumentTask (src/job.ts). -/
def jobOnReject (tid : Nat) (j : JobState) : JobState :=
  let j1 := { j with lastRejected := some tid, lastSettled := some tid }
  if j1.lastPending = some tid then
    { j1 with lastPending := none, status := .idle }
  else j1

/-- The "abort" listener body of Job.#instrumentTask (src/job.ts); note it
does not touch `lastSettled`. -/
def jobOnAbort (tid : Nat) (j : JobState) : JobState :=
  let j1 := { j with lastAborted := some tid }
  if j1.lastPending = some tid then
    { j1 with lastPending := none, status := .idle }
  else j1

/-- Apply a task-level transition to task `tid` and run the Job listener
bodies for every event kind the transition delivered to them (dispatching
through the EventTarget invokes the still-registered listeners
synchronously). -/
def applyTaskF (f : TaskState → TaskState) (tid : Nat) (s : Sys) : Sys :=
  match s.tasks[tid]? with
  | none => s
  | some t =>
    let t2 := f t
    let j1 := if t.deliveredFulfill < t2.deliveredFulfill then
                jobOnFulfill tid s.job else s.job
    let j2 := if t.deliveredReject < t2.deliveredReject then
                jobOnReject tid j1 else j1
    let j3 := if t.deliveredAbort < t2.deliveredAbort then
                jobOnAbort tid j2 else j2
    { job := j3, tasks := s.tasks.set tid t2 }

/-- Job.perform (src/job.ts lines 146-169): create and instrument a new
Task, increment performCount; when a Task is lastPending, Drop aborts the new
Task and returns it, Restart aborts the previous lastPending; otherwise (and
after Restart's abort) start the new Task and make it lastPending with the
Job status Pending.  The new Task's index is the previous task-list
length. -/
def performSys (s : Sys) : Sys :=
  let tid := s.tasks.length
  let s1 : Sys := { job := { s.job with performCount := s.job.performCount + 1 }
                    tasks := s.tasks ++ [instrumentedTask] }
  match s1.job.lastPending with
  | some p =>
    match s1.job.mode with
    | .drop => applyTaskF (abortRequestT defaultReason) tid s1
    | .restart =>
      let s2 := applyTaskF (abortRequestT defaultReason) p s1
      let s3 := applyTaskF executeT tid s2
      { s3 with job := { s3.job with lastPending := some tid, status := .pending } }
  | none =>
    let s2 := applyTaskF executeT tid s1
    { s2 with job := { s2.job with lastPending := some tid, status := .pending } }

/-- Events a trace may contain: a perform() call on the Job, the settlement
of a Task's underlying operation, the delayed delivery of an abort rejection
through the race, a direct Task.abort or Task.perform by an external caller,
and Job.abort. -/
inductive Ev
  | perform
  | opSettle (tid : Nat) (outcome : Except Err String)
  | abortSettle (tid : Nat)
  | taskAbortReq (tid : Nat) (reason : String)
  | taskExecute (tid : Nat)
  | jobAbort (reason : String)
deriving Repr

/-- One step of the system. Job.abort forwards to `lastPending?.abort`. -/
def stepEv (e : Ev) (s : Sys) : Sys :=
  match e with
  | .perform => performSys s
  | .opSettle tid o => applyTaskF (opSettleT o) tid s
  | .abortSettle tid => applyTaskF abortSettleT tid s
  | .taskAbortReq tid r => applyTaskF (abortRequestT r) tid s
  | .taskExecute tid => applyTaskF executeT tid s
  | .jobAbort r =>
    match s.job.lastPending with
    | some p => applyTaskF (abortRequestT r) p s
    | none => s

/-- A freshly constructed Job with no tasks. -/
def initSys (m : JobMode) : Sys := { job := { mode := m }, tasks := [] }

/-- Run a trace of events. -/
def runEvs (evs : List Ev) (s : Sys) : Sys :=
  evs.foldl (fun s e => stepEv e s) s

/-!  Task-local invariant.  Every task created and instrumented by a Job
satisfies it, and it is preserved by every transition. -/

/-- Invariant of a single instrumented task. -/
structure TInv (t : TaskState) : Prop where
  factory_le : t.factoryCalls ≤ 1
  dab_le : t.deliveredAbort ≤ 1
  dfu_le : t.deliveredFulfill ≤ 1
  dre_le : t.deliveredReject ≤ 1
  dab_dispatch : t.deliveredAbort ≤ t.abortDispatches
  dfu_dispatch : t.deliveredFulfill ≤ t.fulfillDispatches
  dre_dispatch : t.deliveredReject ≤ t.rejectDispatches
  abortListener_iff : t.abortListenerActive = true ↔ t.deliveredAbort = 0
  fulfillListener_iff : t.fulfillListenerActive = true ↔
    (t.deliveredFulfill = 0 ∧ t.signalAborted = false)
  rejectListener_iff : t.rejectListenerActive = true ↔
    (t.deliveredReject = 0 ∧ t.signalAborted = false)
  signal_iff : t.signalAborted = true ↔ t.signalReason.isSome
  signal_reason : ∀ e, t.signalReason = some e → e.isTaskAbort = true
  idle_props : t.status = .idle →
    t.memoized = false ∧ t.factoryCalls = 0 ∧ t.value = none ∧ t.error = none ∧
    t.signalAborted = false ∧ t.abortDispatches = 0 ∧ t.fulfillDispatches = 0 ∧
    t.rejectDispatches = 0
  pending_props : t.status = .pending →
    t.memoized = true ∧ t.factoryCalls = 1 ∧ t.value = none ∧ t.error = none ∧
    t.abortDispatches = 0 ∧ t.fulfillDispatches = 0 ∧ t.rejectDispatches = 0
  fulfilled_props : t.status = .fulfilled →
    t.value.isSome ∧ t.memoized = true ∧ t.signalAborted = false ∧
    t.fulfillDispatches = 1 ∧ t.deliveredFulfill = 1 ∧ t.abortDispatches = 0 ∧
    t.rejectDispatches = 0
  rejected_props : t.status = .rejected →
    (∃ e, t.error = some e ∧ e.isTaskAbort = false) ∧ t.memoized = true ∧
    t.signalAborted = false ∧ t.value = none ∧ t.rejectDispatches = 1 ∧
    t.deliveredReject = 1 ∧ t.abortDispatches = 0 ∧ t.fulfillDispatches = 0
  aborted_props : t.status = .aborted →
    (∃ r, t.error = some (Err.taskAbort r)) ∧ t.value = none ∧
    t.deliveredAbort = 1 ∧ t.fulfillDispatches = 0 ∧ t.rejectDispatches = 0 ∧
    (t.memoized = false → t.signalAborted = true)

/-!  System-level invariant. -/

/-- Invariant of a reachable Job system. -/
structure SysInv (s : Sys) : Prop where
  status_iff : s.job.status = .pending ↔ s.job.lastPending.isSome
  lastPending_pending : ∀ p, s.job.lastPending = some p →
    ∃ t, s.tasks[p]? = some t ∧ t.status = .pending
  tasks_inv : ∀ t ∈ s.tasks, TInv t
  tasks_started : ∀ t ∈ s.tasks, t.status ≠ .idle
  lastFulfilled_inv : ∀ q, s.job.lastFulfilled = some q →
    ∃ t, s.tasks[q]? = some t ∧ 0 < t.deliveredFulfill
  lastRejected_inv : ∀ q, s.job.lastRejected = some q →
    ∃ t, s.tasks[q]? = some t ∧ 0 < t.deliveredReject

/-- In Drop mode every Pending task is the lastPending one; hence at most
one task is Pending at a time. -/
def DropUnique (s : Sys) : Prop :=
  ∀ i t, s.tasks[i]? = some t → t.status = .pending → s.job.lastPending = some i

/-- Ghost predicate for a task that settled Aborted with `n` factory
invocations: it stays Aborted with `n` factory invocations forever and
never delivers a fulfill or reject notification. -/
def AbortedGhost (a n : Nat) (s : Sys) : Prop :=
  ∃ t, s.tasks[a]? = some t ∧ t.status = .aborted ∧ t.factoryCalls = n ∧
    t.deliveredFulfill = 0 ∧ t.deliveredReject = 0


/-- Summary of every transition a task-level function can make to a
non-idle invariant-satisfying task: unchanged; a pending task acquiring the
signal; a pending task settling (delivering exactly the matching event kind
once); or an aborted task absorbing a repeated dispatch with no delivery. -/
def TaskDelta (t t2 : TaskState) : Prop :=
  t2 = t ∨
  (t.status = .pending ∧ t2.status = .pending ∧
    t2.deliveredAbort = t.deliveredAbort ∧
    t2.deliveredFulfill = t.deliveredFulfill ∧
    t2.deliveredReject = t.deliveredReject) ∨
  (t.status = .pending ∧ t2.status = .fulfilled ∧
    t2.deliveredAbort = t.deliveredAbort ∧
    t2.deliveredFulfill = t.deliveredFulfill + 1 ∧
    t2.deliveredReject = t.deliveredReject) ∨
  (t.status = .pending ∧ t2.status = .rejected ∧
    t2.deliveredAbort = t.deliveredAbort ∧
    t2.deliveredFulfill = t.deliveredFulfill ∧
    t2.deliveredReject = t.deliveredReject + 1) ∨
  (t.status = .pending ∧ t2.status = .aborted ∧
    t2.deliveredAbort = t.deliveredAbort + 1 ∧
    t2.deliveredFulfill = t.deliveredFulfill ∧
    t2.deliveredReject = t.deliveredReject) ∨
  (t.status = .aborted ∧ t2.status = .aborted ∧
    t2.factoryCalls = t.factoryCalls ∧
    t2.deliveredAbort = t.deliveredAbort ∧
    t2.deliveredFulfill = t.deliveredFulfill ∧
    t2.deliveredReject = t.deliveredReject)


/-- Everything one system step must preserve. -/
def StepOK (s s2 : Sys) : Prop :=
  SysInv s2 ∧ s2.job.mode = s.job.mode ∧
  (s.job.mode = .drop → DropUnique s → DropUnique s2) ∧
  (∀ a n, AbortedGhost a n s → AbortedGhost a n s2)


/-!  Model of the cancellation composer `work(signal, operation)` of
src/work.ts lines 1-16.  The composed promise is a race between a promise
rejected by a `once`-registered abort listener on the signal and the
operation's promise.  `workInit` is the synchronous part of the call
(`throwIfAborted`, then listener registration); the race is then driven by
the order in which the signal fires and the operation settles. -/

instance : DecidableEq (Except Err String) := fun x y =>
  match x, y with
  | .ok a, .ok b => decidable_of_iff (a = b) (by simp)
  | .ok _, .error _ => .isFalse (by simp)
  | .error _, .ok _ => .isFalse (by simp)
  | .error a, .error b => decidable_of_iff (a = b) (by simp)

/-- State of one `work` call: the settlement of the composed promise (the
race locks to whichever input promise settles first and never changes
afterwards) and whether the abort listener is currently attached to the
signal. -/
structure WSt where
  settled : Option (Except Err String)
  listenerAttached : Bool
deriving DecidableEq, Repr

/-- Events driving a `work` race: the signal fires with a reason, or the
operation promise settles. -/
inductive WEv
  | sigFire (reason : Err)
  | opDone (outcome : Except Err String)
deriving Repr

/-- Entry of `work`: if the signal is already aborted, `throwIfAborted`
rejects immediately and no listener is ever attached; otherwise the abort
listener is attached (with `once: true`) and the race begins unsettled. -/
def workInit (sigAtCall : Option Err) : WSt :=
  match sigAtCall with
  | some e => { settled := some (.error e), listenerAttached := false }
  | none => { settled := none, listenerAttached := true }

/-- One event of the race.  When the signal fires while the listener is
attached, the listener runs once (rejecting the inner promise, which wins
the race only if the race is not yet settled) and is then removed by its
`once` registration.  When the operation settles first it wins the race,
but nothing removes the abort listener. -/
def wStep (e : WEv) (w : WSt) : WSt :=
  match e with
  | .sigFire r =>
    if w.listenerAttached then
      { settled := some (w.settled.getD (.error r)), listenerAttached := false }
    else w
  | .opDone o =>
    match w.settled with
    | some _ => w
    | none => { w with settled := some o }

/-- Run a sequence of race events. -/
def wRun (evs : List WEv) (w : WSt) : WSt :=
  evs.foldl (fun w e => wStep e w) w


theorem instrumentedTask_TInv : TInv instrumentedTask := by
  constructor <;> simp [instrumentedTask]

/-!  Shape lemmas: each task-level function, on each kind of input the
invariant allows, equals an explicit record update. -/

theorem dispatchAbort_active (t : TaskState) (h : t.abortListenerActive = true) :
    dispatchAbort t = { t with abortDispatches := t.abortDispatches + 1
                               deliveredAbort := t.deliveredAbort + 1
                               abortListenerActive := false } := by
  simp [dispatchAbort, h]

theorem dispatchAbort_inactive (t : TaskState) (h : t.abortListenerActive = false) :
    dispatchAbort t = { t with abortDispatches := t.abortDispatches + 1 } := by
  simp [dispatchAbort, h]

theorem dispatchFulfill_active (t : TaskState) (h : t.fulfillListenerActive = true) :
    dispatchFulfill t = { t with fulfillDispatches := t.fulfillDispatches + 1
                                 deliveredFulfill := t.deliveredFulfill + 1
                                 fulfillListenerActive := false } := by
  simp [dispatchFulfill, h]

theorem dispatchFulfill_inactive (t : TaskState) (h : t.fulfillListenerActive = false) :
    dispatchFulfill t = { t with fulfillDispatches := t.fulfillDispatches + 1 } := by
  simp [dispatchFulfill, h]

theorem dispatchReject_active (t : TaskState) (h : t.rejectListenerActive = true) :
    dispatchReject t = { t with rejectDispatches := t.rejectDispatches + 1
                                deliveredReject := t.deliveredReject + 1
                                rejectListenerActive := false } := by
  simp [dispatchReject, h]

theorem dispatchReject_inactive (t : TaskState) (h : t.rejectListenerActive = false) :
    dispatchReject t = { t with rejectDispatches := t.rejectDispatches + 1 } := by
  simp [dispatchReject, h]

theorem handleFailureT_abort (e : Err) (t : TaskState) (he : e.isTaskAbort = true) :
    handleFailureT e t = dispatchAbort { t with error := some e, status := .aborted } := by
  simp [handleFailureT, he]

theorem handleFailureT_reject (e : Err) (t : TaskState) (he : e.isTaskAbort = false) :
    handleFailureT e t = dispatchReject { t with error := some e, status := .rejected } := by
  simp [handleFailureT, he]

theorem handleSuccessT_eq (v : String) (t : TaskState) :
    handleSuccessT v t = dispatchFulfill { t with value := some v, status := .fulfilled } := rfl

theorem fireSignal_idle (e : Err) (t : TaskState) (h : t.signalAborted = false) :
    fireSignal e t = { t with signalAborted := true
                              signalReason := some e
                              fulfillListenerActive := false
                              rejectListenerActive := false } := by
  simp [fireSignal, h]

theorem fireSignal_fired (e : Err) (t : TaskState) (h : t.signalAborted = true) :
    fireSignal e t = t := by
  simp [fireSignal, h]

theorem executeT_memoized (t : TaskState) (h : t.memoized = true) : executeT t = t := by
  simp [executeT, h]

theorem executeT_start (t : TaskState) (hm : t.memoized = false)
    (hs : t.signalAborted = false) :
    executeT t = { t with memoized := true, status := .pending
                          factoryCalls := t.factoryCalls + 1 } := by
  simp [executeT, hm, hs]

theorem executeT_sig (t : TaskState) (e : Err) (hm : t.memoized = false)
    (hs : t.signalAborted = true) (hr : t.signalReason = some e) :
    executeT t = handleFailureT e { t with memoized := true } := by
  simp [executeT, hm, hs, hr]

theorem abortRequestT_settled (r : String) (t : TaskState)
    (h1 : t.status ≠ .idle) (h2 : t.status ≠ .pending) :
    abortRequestT r t = t := by
  simp [abortRequestT, h1, h2]

theorem abortRequestT_pending (r : String) (t : TaskState) (h : t.status = .pending) :
    abortRequestT r t = fireSignal (Err.taskAbort r) t := by
  have : (fireSignal (Err.taskAbort r) t).status = .pending := by
    by_cases hs : t.signalAborted = true
    · rw [fireSignal_fired _ _ hs]; exact h
    · rw [fireSignal_idle _ _ (by simpa using hs)]; exact h
  simp [abortRequestT, h, this]

theorem abortRequestT_idle (r : String) (t : TaskState) (h : t.status = .idle)
    (hs : t.signalAborted = false) :
    abortRequestT r t =
      handleFailureT (Err.taskAbort r) (fireSignal (Err.taskAbort r) t) := by
  have : (fireSignal (Err.taskAbort r) t).status = .idle := by
    rw [fireSignal_idle _ _ hs]; exact h
  simp [abortRequestT, h, this]

theorem opSettleT_stale (o : Except Err String) (t : TaskState)
    (h : ¬(t.status = .pending ∧ t.signalAborted = false)) :
    opSettleT o t = t := by
  simp only [opSettleT, if_neg h]

theorem opSettleT_ok (v : String) (t : TaskState) (h1 : t.status = .pending)
    (h2 : t.signalAborted = false) :
    opSettleT (.ok v) t = handleSuccessT v t := by
  simp [opSettleT, h1, h2]

theorem opSettleT_err (e : Err) (t : TaskState) (h1 : t.status = .pending)
    (h2 : t.signalAborted = false) :
    opSettleT (.error e) t = handleFailureT e t := by
  simp [opSettleT, h1, h2]

theorem abortSettleT_stale (t : TaskState)
    (h : ¬(t.status = .pending ∧ t.signalAborted = true)) :
    abortSettleT t = t := by
  simp only [abortSettleT, if_neg h]

theorem abortSettleT_fire (t : TaskState) (e : Err) (h1 : t.status = .pending)
    (h2 : t.signalAborted = true) (hr : t.signalReason = some e) :
    abortSettleT t = handleFailureT e t := by
  simp [abortSettleT, h1, h2, hr]

/-!  Invariant preservation at the task level. -/

theorem unmemoized_status (t : TaskState) (hT : TInv t) (hm : t.memoized = false) :
    t.status = .idle ∨ t.status = .aborted := by
  cases h : t.status
  · exact .inl rfl
  · have := (hT.pending_props h).1; simp_all
  · have := (hT.fulfilled_props h).2.1; simp_all
  · have := (hT.rejected_props h).2.1; simp_all
  · exact .inr rfl

theorem executeT_TInv (t : TaskState) (hT : TInv t) : TInv (executeT t) := by
  by_cases hm : t.memoized = true
  · rw [executeT_memoized t hm]; exact hT
  · replace hm : t.memoized = false := by simpa using hm
    rcases unmemoized_status t hT hm with hstat | hstat
    · obtain ⟨-, hf, hv, he, hs, hd1, hd2, hd3⟩ := hT.idle_props hstat
      rw [executeT_start t hm hs]
      have hda : t.deliveredAbort = 0 := le_antisymm (hd1 ▸ hT.dab_dispatch) (Nat.zero_le _)
      have hdf : t.deliveredFulfill = 0 := le_antisymm (hd2 ▸ hT.dfu_dispatch) (Nat.zero_le _)
      have hdr : t.deliveredReject = 0 := le_antisymm (hd3 ▸ hT.dre_dispatch) (Nat.zero_le _)
      have hrn : t.signalReason = none := by
        rcases h : t.signalReason with - | e
        · rfl
        · exact absurd (hT.signal_iff.mpr (by simp [h])) (by simp [hs])
      constructor <;>
        simp_all [hT.abortListener_iff, hT.fulfillListener_iff, hT.rejectListener_iff,
          hT.signal_iff]
    · obtain ⟨⟨r, her⟩, hv, hda, hd2, hd3, hmem⟩ := hT.aborted_props hstat
      have hs : t.signalAborted = true := hmem hm
      obtain ⟨e, hsr⟩ := Option.isSome_iff_exists.mp (hT.signal_iff.mp hs)
      have hta : e.isTaskAbort = true := hT.signal_reason e hsr
      obtain ⟨r2, rfl⟩ : ∃ r2, e = Err.taskAbort r2 := by
        cases e with
        | taskAbort r2 => exact ⟨r2, rfl⟩
        | app c => simp [Err.isTaskAbort] at hta
      have hact : t.abortListenerActive = false := by
        rcases Bool.eq_false_or_eq_true t.abortListenerActive with h | h
        · have := hT.abortListener_iff.mp h; omega
        · exact h
      rw [executeT_sig t _ hm hs hsr,
        handleFailureT_abort _ _ (by simp [Err.isTaskAbort]),
        dispatchAbort_inactive _ (by simp [hact])]
      have h1 := hT.factory_le
      have h3 := hT.dfu_le
      have h4 := hT.dre_le
      have h5 := hT.dab_dispatch
      have h6 := hT.dfu_dispatch
      have h7 := hT.dre_dispatch
      have h9 := hT.fulfillListener_iff
      have h10 := hT.rejectListener_iff
      constructor <;> simp_all

theorem pending_delivered (t : TaskState) (hT : TInv t) (h : t.status = .pending) :
    t.deliveredAbort = 0 ∧ t.deliveredFulfill = 0 ∧ t.deliveredReject = 0 := by
  obtain ⟨-, -, -, -, hd1, hd2, hd3⟩ := hT.pending_props h
  have := hT.dab_dispatch
  have := hT.dfu_dispatch
  have := hT.dre_dispatch
  omega

theorem idle_delivered (t : TaskState) (hT : TInv t) (h : t.status = .idle) :
    t.deliveredAbort = 0 ∧ t.deliveredFulfill = 0 ∧ t.deliveredReject = 0 := by
  obtain ⟨-, -, -, -, -, hd1, hd2, hd3⟩ := hT.idle_props h
  have := hT.dab_dispatch
  have := hT.dfu_dispatch
  have := hT.dre_dispatch
  omega

theorem abortRequestT_TInv (r : String) (t : TaskState) (hT : TInv t) :
    TInv (abortRequestT r t) := by
  rcases hstat : t.status with h | h | h | h | h
  · obtain ⟨hm, hf, hv, he, hs, hd1, hd2, hd3⟩ := hT.idle_props hstat
    obtain ⟨hda, hdf, hdr⟩ := idle_delivered t hT hstat
    have hact : t.abortListenerActive = true := hT.abortListener_iff.mpr hda
    rw [abortRequestT_idle r t hstat hs, fireSignal_idle _ _ hs,
      handleFailureT_abort _ _ (by simp [Err.isTaskAbort]),
      dispatchAbort_active _ (by simp [hact])]
    constructor <;> simp_all [Err.isTaskAbort]
  · obtain ⟨hm, hf, hv, he, hd1, hd2, hd3⟩ := hT.pending_props hstat
    obtain ⟨hda, hdf, hdr⟩ := pending_delivered t hT hstat
    rw [abortRequestT_pending r t hstat]
    by_cases hs : t.signalAborted = true
    · rw [fireSignal_fired _ _ hs]; exact hT
    · replace hs : t.signalAborted = false := by simpa using hs
      rw [fireSignal_idle _ _ hs]
      have h8 := hT.abortListener_iff
      constructor <;> simp_all [Err.isTaskAbort]
  · rw [abortRequestT_settled r t (by simp [hstat]) (by simp [hstat])]; exact hT
  · rw [abortRequestT_settled r t (by simp [hstat]) (by simp [hstat])]; exact hT
  · rw [abortRequestT_settled r t (by simp [hstat]) (by simp [hstat])]; exact hT

theorem opSettleT_TInv (o : Except Err String) (t : TaskState) (hT : TInv t) :
    TInv (opSettleT o t) := by
  by_cases hg : t.status = .pending ∧ t.signalAborted = false
  · obtain ⟨hstat, hs⟩ := hg
    obtain ⟨hm, hf, hv, he, hd1, hd2, hd3⟩ := hT.pending_props hstat
    obtain ⟨hda, hdf, hdr⟩ := pending_delivered t hT hstat
    have hrn : t.signalReason = none := by
      rcases hx : t.signalReason with - | e
      · rfl
      · exact absurd (hT.signal_iff.mpr (by simp [hx])) (by simp [hs])
    cases o with
    | ok v =>
      rw [opSettleT_ok v t hstat hs, handleSuccessT_eq,
        dispatchFulfill_active _ (by simp [hT.fulfillListener_iff.mpr ⟨hdf, hs⟩])]
      have h8 := hT.abortListener_iff
      have h10 := hT.rejectListener_iff
      constructor <;> simp_all
    | error e =>
      rcases he2 : e.isTaskAbort with - | -
      · rw [opSettleT_err e t hstat hs, handleFailureT_reject _ _ he2,
          dispatchReject_active _ (by simp [hT.rejectListener_iff.mpr ⟨hdr, hs⟩])]
        have h8 := hT.abortListener_iff
        have h9 := hT.fulfillListener_iff
        constructor <;> simp_all
      · obtain ⟨r, rfl⟩ : ∃ r, e = Err.taskAbort r := by
          cases e with
          | taskAbort r => exact ⟨r, rfl⟩
          | app c => simp [Err.isTaskAbort] at he2
        rw [opSettleT_err _ t hstat hs, handleFailureT_abort _ _ he2,
          dispatchAbort_active _ (by simp [hT.abortListener_iff.mpr hda])]
        have h9 := hT.fulfillListener_iff
        have h10 := hT.rejectListener_iff
        constructor <;> simp_all
  · rw [opSettleT_stale o t hg]; exact hT

theorem abortSettleT_TInv (t : TaskState) (hT : TInv t) :
    TInv (abortSettleT t) := by
  by_cases hg : t.status = .pending ∧ t.signalAborted = true
  · obtain ⟨hstat, hs⟩ := hg
    obtain ⟨hm, hf, hv, he, hd1, hd2, hd3⟩ := hT.pending_props hstat
    obtain ⟨hda, hdf, hdr⟩ := pending_delivered t hT hstat
    obtain ⟨e, hsr⟩ := Option.isSome_iff_exists.mp (hT.signal_iff.mp hs)
    have hta : e.isTaskAbort = true := hT.signal_reason e hsr
    obtain ⟨r, rfl⟩ : ∃ r, e = Err.taskAbort r := by
      cases e with
      | taskAbort r => exact ⟨r, rfl⟩
      | app c => simp [Err.isTaskAbort] at hta
    rw [abortSettleT_fire t _ hstat hs hsr, handleFailureT_abort _ _ hta,
      dispatchAbort_active _ (by simp [hT.abortListener_iff.mpr hda])]
    have h9 := hT.fulfillListener_iff
    have h10 := hT.rejectListener_iff
    constructor <;> simp_all
  · rw [abortSettleT_stale t hg]; exact hT

/-!  Case descriptions: under the invariant, each task-level function either
leaves the task unchanged or equals one explicit record update. -/

theorem executeT_cases (t : TaskState) (hT : TInv t) :
    executeT t = t ∨
    (t.status = .idle ∧ executeT t =
      { t with memoized := true, status := .pending
               factoryCalls := t.factoryCalls + 1 }) ∨
    (t.status = .aborted ∧ ∃ r, executeT t =
      { t with memoized := true, error := some (Err.taskAbort r), status := .aborted
               abortDispatches := t.abortDispatches + 1 }) := by
  by_cases hm : t.memoized = true
  · exact .inl (executeT_memoized t hm)
  · replace hm : t.memoized = false := by simpa using hm
    rcases unmemoized_status t hT hm with hstat | hstat
    · obtain ⟨-, -, -, -, hs, -, -, -⟩ := hT.idle_props hstat
      exact .inr (.inl ⟨hstat, executeT_start t hm hs⟩)
    · obtain ⟨-, -, hda, -, -, hmem⟩ := hT.aborted_props hstat
      have hs : t.signalAborted = true := hmem hm
      obtain ⟨e, hsr⟩ := Option.isSome_iff_exists.mp (hT.signal_iff.mp hs)
      have hta : e.isTaskAbort = true := hT.signal_reason e hsr
      obtain ⟨r, rfl⟩ : ∃ r, e = Err.taskAbort r := by
        cases e with
        | taskAbort r => exact ⟨r, rfl⟩
        | app c => simp [Err.isTaskAbort] at hta
      have hact : t.abortListenerActive = false := by
        rcases Bool.eq_false_or_eq_true t.abortListenerActive with h | h
        · have := hT.abortListener_iff.mp h; omega
        · exact h
      refine .inr (.inr ⟨hstat, r, ?_⟩)
      rw [executeT_sig t _ hm hs hsr, handleFailureT_abort _ _ hta,
        dispatchAbort_inactive _ (by simp [hact])]

theorem abortRequestT_cases (r : String) (t : TaskState) (hT : TInv t) :
    abortRequestT r t = t ∨
    (t.status = .pending ∧ t.signalAborted = false ∧ abortRequestT r t =
      { t with signalAborted := true, signalReason := some (Err.taskAbort r)
               fulfillListenerActive := false, rejectListenerActive := false }) ∨
    (t.status = .idle ∧ abortRequestT r t =
      { t with signalAborted := true, signalReason := some (Err.taskAbort r)
               fulfillListenerActive := false, rejectListenerActive := false
               error := some (Err.taskAbort r), status := .aborted
               abortDispatches := t.abortDispatches + 1
               deliveredAbort := t.deliveredAbort + 1
               abortListenerActive := false }) := by
  by_cases h1 : t.status = .idle
  · obtain ⟨-, -, -, -, hs, hd1, -, -⟩ := hT.idle_props h1
    obtain ⟨hda, -, -⟩ := idle_delivered t hT h1
    have hact : t.abortListenerActive = true := hT.abortListener_iff.mpr hda
    refine .inr (.inr ⟨h1, ?_⟩)
    rw [abortRequestT_idle r t h1 hs, fireSignal_idle _ _ hs,
      handleFailureT_abort _ _ (by simp [Err.isTaskAbort]),
      dispatchAbort_active _ (by simp [hact])]
  · by_cases h2 : t.status = .pending
    · by_cases hs : t.signalAborted = true
      · rw [abortRequestT_pending r t h2, fireSignal_fired _ _ hs]; exact .inl rfl
      · replace hs : t.signalAborted = false := by simpa using hs
        refine .inr (.inl ⟨h2, hs, ?_⟩)
        rw [abortRequestT_pending r t h2, fireSignal_idle _ _ hs]
    · exact .inl (abortRequestT_settled r t h1 h2)

theorem opSettleT_cases (o : Except Err String) (t : TaskState) (hT : TInv t) :
    opSettleT o t = t ∨
    (t.status = .pending ∧ t.signalAborted = false ∧
      ((∃ v, o = .ok v ∧ opSettleT o t =
        { t with value := some v, status := .fulfilled
                 fulfillDispatches := t.fulfillDispatches + 1
                 deliveredFulfill := t.deliveredFulfill + 1
                 fulfillListenerActive := false }) ∨
       (∃ e, o = .error e ∧ e.isTaskAbort = false ∧ opSettleT o t =
        { t with error := some e, status := .rejected
                 rejectDispatches := t.rejectDispatches + 1
                 deliveredReject := t.deliveredReject + 1
                 rejectListenerActive := false }) ∨
       (∃ r2, o = .error (Err.taskAbort r2) ∧ opSettleT o t =
        { t with error := some (Err.taskAbort r2), status := .aborted
                 abortDispatches := t.abortDispatches + 1
                 deliveredAbort := t.deliveredAbort + 1
                 abortListenerActive := false }))) := by
  by_cases hg : t.status = .pending ∧ t.signalAborted = false
  · obtain ⟨hstat, hs⟩ := hg
    obtain ⟨hda, hdf, hdr⟩ := pending_delivered t hT hstat
    refine .inr ⟨hstat, hs, ?_⟩
    cases o with
    | ok v =>
      refine .inl ⟨v, rfl, ?_⟩
      rw [opSettleT_ok v t hstat hs, handleSuccessT_eq,
        dispatchFulfill_active _ (by simp [hT.fulfillListener_iff.mpr ⟨hdf, hs⟩])]
    | error e =>
      rcases he2 : e.isTaskAbort with - | -
      · refine .inr (.inl ⟨e, rfl, he2, ?_⟩)
        rw [opSettleT_err e t hstat hs, handleFailureT_reject _ _ he2,
          dispatchReject_active _ (by simp [hT.rejectListener_iff.mpr ⟨hdr, hs⟩])]
      · obtain ⟨r2, rfl⟩ : ∃ r2, e = Err.taskAbort r2 := by
          cases e with
          | taskAbort r2 => exact ⟨r2, rfl⟩
          | app c => simp [Err.isTaskAbort] at he2
        refine .inr (.inr ⟨r2, rfl, ?_⟩)
        rw [opSettleT_err _ t hstat hs, handleFailureT_abort _ _ he2,
          dispatchAbort_active _ (by simp [hT.abortListener_iff.mpr hda])]
  · exact .inl (opSettleT_stale o t hg)

theorem abortSettleT_cases (t : TaskState) (hT : TInv t) :
    abortSettleT t = t ∨
    (t.status = .pending ∧ t.signalAborted = true ∧ ∃ r,
      abortSettleT t =
        { t with error := some (Err.taskAbort r), status := .aborted
                 abortDispatches := t.abortDispatches + 1
                 deliveredAbort := t.deliveredAbort + 1
                 abortListenerActive := false }) := by
  by_cases hg : t.status = .pending ∧ t.signalAborted = true
  · obtain ⟨hstat, hs⟩ := hg
    obtain ⟨hda, -, -⟩ := pending_delivered t hT hstat
    obtain ⟨e, hsr⟩ := Option.isSome_iff_exists.mp (hT.signal_iff.mp hs)
    have hta : e.isTaskAbort = true := hT.signal_reason e hsr
    obtain ⟨r, rfl⟩ : ∃ r, e = Err.taskAbort r := by
      cases e with
      | taskAbort r => exact ⟨r, rfl⟩
      | app c => simp [Err.isTaskAbort] at hta
    refine .inr ⟨hstat, hs, r, ?_⟩
    rw [abortSettleT_fire t _ hstat hs hsr, handleFailureT_abort _ _ hta,
      dispatchAbort_active _ (by simp [hT.abortListener_iff.mpr hda])]
  · exact .inl (abortSettleT_stale t hg)

theorem initSys_SysInv (m : JobMode) : SysInv (initSys m) := by
  constructor <;> simp [initSys]

theorem initSys_DropUnique (m : JobMode) : DropUnique (initSys m) := by
  intro i t h
  simp [initSys] at h

/-!  Helper lemmas on the job listener bodies. -/

theorem jobOnFulfill_clear (tid : Nat) (j : JobState) (h : j.lastPending = some tid) :
    jobOnFulfill tid j = { j with lastFulfilled := some tid, lastSettled := some tid
                                  lastPending := none, status := .idle } := by
  simp [jobOnFulfill, h]

theorem jobOnFulfill_keep (tid : Nat) (j : JobState) (h : ¬j.lastPending = some tid) :
    jobOnFulfill tid j = { j with lastFulfilled := some tid, lastSettled := some tid } := by
  simp [jobOnFulfill, h]

theorem jobOnReject_clear (tid : Nat) (j : JobState) (h : j.lastPending = some tid) :
    jobOnReject tid j = { j with lastRejected := some tid, lastSettled := some tid
                                 lastPending := none, status := .idle } := by
  simp [jobOnReject, h]

theorem jobOnReject_keep (tid : Nat) (j : JobState) (h : ¬j.lastPending = some tid) :
    jobOnReject tid j = { j with lastRejected := some tid, lastSettled := some tid } := by
  simp [jobOnReject, h]

theorem jobOnAbort_clear (tid : Nat) (j : JobState) (h : j.lastPending = some tid) :
    jobOnAbort tid j = { j with lastAborted := some tid
                                lastPending := none, status := .idle } := by
  simp [jobOnAbort, h]

theorem jobOnAbort_keep (tid : Nat) (j : JobState) (h : ¬j.lastPending = some tid) :
    jobOnAbort tid j = { j with lastAborted := some tid } := by
  simp [jobOnAbort, h]

/-!  Helper lemmas on applyTaskF. -/

theorem applyTaskF_none (f : TaskState → TaskState) (tid : Nat) (s : Sys)
    (h : s.tasks[tid]? = none) : applyTaskF f tid s = s := by
  simp [applyTaskF, h]

theorem set_self (l : List TaskState) (i : Nat) (t : TaskState)
    (h : l[i]? = some t) : l.set i t = l := by
  have hlt : i < l.length := by
    by_contra hc
    push_neg at hc
    rw [List.getElem?_eq_none hc] at h
    cases h
  apply List.ext_getElem?
  intro n
  by_cases hn : i = n
  · subst hn
    simp [List.getElem?_set, h, hlt]
  · simp [List.getElem?_set, hn]

theorem applyTaskF_unchanged (f : TaskState → TaskState) (tid : Nat) (s : Sys)
    (t : TaskState) (h : s.tasks[tid]? = some t) (hf : f t = t) :
    applyTaskF f tid s = s := by
  simp only [applyTaskF, h, hf]
  simp [set_self s.tasks tid t h]

theorem applyTaskF_no_delivery (f : TaskState → TaskState) (tid : Nat) (s : Sys)
    (t : TaskState) (h : s.tasks[tid]? = some t)
    (h1 : (f t).deliveredAbort = t.deliveredAbort)
    (h2 : (f t).deliveredFulfill = t.deliveredFulfill)
    (h3 : (f t).deliveredReject = t.deliveredReject) :
    applyTaskF f tid s = { job := s.job, tasks := s.tasks.set tid (f t) } := by
  simp [applyTaskF, h, h1, h2, h3]

theorem applyTaskF_deliver_abort (f : TaskState → TaskState) (tid : Nat) (s : Sys)
    (t : TaskState) (h : s.tasks[tid]? = some t)
    (h1 : (f t).deliveredAbort = t.deliveredAbort + 1)
    (h2 : (f t).deliveredFulfill = t.deliveredFulfill)
    (h3 : (f t).deliveredReject = t.deliveredReject) :
    applyTaskF f tid s =
      { job := jobOnAbort tid s.job, tasks := s.tasks.set tid (f t) } := by
  simp [applyTaskF, h, h1, h2, h3]

theorem applyTaskF_deliver_fulfill (f : TaskState → TaskState) (tid : Nat) (s : Sys)
    (t : TaskState) (h : s.tasks[tid]? = some t)
    (h1 : (f t).deliveredAbort = t.deliveredAbort)
    (h2 : (f t).deliveredFulfill = t.deliveredFulfill + 1)
    (h3 : (f t).deliveredReject = t.deliveredReject) :
    applyTaskF f tid s =
      { job := jobOnFulfill tid s.job, tasks := s.tasks.set tid (f t) } := by
  simp [applyTaskF, h, h1, h2, h3]

theorem applyTaskF_deliver_reject (f : TaskState → TaskState) (tid : Nat) (s : Sys)
    (t : TaskState) (h : s.tasks[tid]? = some t)
    (h1 : (f t).deliveredAbort = t.deliveredAbort)
    (h2 : (f t).deliveredFulfill = t.deliveredFulfill)
    (h3 : (f t).deliveredReject = t.deliveredReject + 1) :
    applyTaskF f tid s =
      { job := jobOnReject tid s.job, tasks := s.tasks.set tid (f t) } := by
  simp [applyTaskF, h, h1, h2, h3]

/-- Precise membership in a set list. -/
theorem mem_set_cases (l : List TaskState) (i : Nat) (x u : TaskState)
    (h : u ∈ l.set i x) : u = x ∨ ∃ j, j ≠ i ∧ l[j]? = some u := by
  obtain ⟨j, hju⟩ := List.mem_iff_getElem?.mp h
  rw [List.getElem?_set] at hju
  by_cases hji : j = i
  · subst hji
    simp only [if_pos rfl] at hju
    by_cases hlt : j < l.length
    · rw [if_pos hlt] at hju
      exact .inl (Option.some_injective _ hju).symm
    · rw [if_neg hlt] at hju
      cases hju
  · right
    refine ⟨j, hji, ?_⟩
    rwa [if_neg (fun hh => hji hh.symm)] at hju

theorem lt_of_getElem?_some (l : List TaskState) (i : Nat) (t : TaskState)
    (h : l[i]? = some t) : i < l.length := by
  by_contra hc
  push_neg at hc
  rw [List.getElem?_eq_none hc] at h
  cases h

theorem getElem?_set_ne' (l : List TaskState) (i j : Nat) (x : TaskState)
    (h : ¬i = j) : (l.set i x)[j]? = l[j]? := by
  simp [List.getElem?_set, h]

theorem getElem?_set_self' (l : List TaskState) (i : Nat) (x : TaskState)
    (h : i < l.length) : (l.set i x)[i]? = some x := by
  simp [List.getElem?_set, h]

theorem tasks_inv_set (s : Sys) (hS : SysInv s) (tid : Nat) (t2 : TaskState)
    (h2 : TInv t2) : ∀ u ∈ s.tasks.set tid t2, TInv u := by
  intro u hu
  rcases List.mem_or_eq_of_mem_set hu with hu | rfl
  · exact hS.tasks_inv u hu
  · exact h2

theorem tasks_started_set (s : Sys) (hS : SysInv s) (tid : Nat) (t2 : TaskState)
    (h2 : t2.status ≠ .idle) : ∀ u ∈ s.tasks.set tid t2, u.status ≠ .idle := by
  intro u hu
  rcases mem_set_cases _ _ _ _ hu with rfl | ⟨j, hj, hju⟩
  · exact h2
  · exact hS.tasks_started u (List.getElem?_mem hju)

/-- A witness that task `q` has a positive delivery counter survives setting
another (or the same, monotonically updated) slot. -/
theorem slot_inv_set (g : TaskState → Nat) (l : List TaskState) (tid : Nat)
    (t t2 : TaskState) (h : l[tid]? = some t) (hd : g t ≤ g t2) (q : Nat)
    (hex : ∃ u, l[q]? = some u ∧ 0 < g u) :
    ∃ u, (l.set tid t2)[q]? = some u ∧ 0 < g u := by
  obtain ⟨u, hu, hgu⟩ := hex
  by_cases ht : tid = q
  · subst ht
    rw [h] at hu
    injection hu with hu2
    refine ⟨t2, getElem?_set_self' _ _ _ (lt_of_getElem?_some _ _ _ h), ?_⟩
    rw [← hu2] at hgu
    omega
  · exact ⟨u, by rw [getElem?_set_ne' _ _ _ _ ht]; exact hu, hgu⟩

theorem executeT_delta (t : TaskState) (hT : TInv t) (hs : t.status ≠ .idle) :
    TaskDelta t (executeT t) := by
  rcases executeT_cases t hT with hf | ⟨hstat, -⟩ | ⟨hstat, r, hf⟩
  · exact .inl hf
  · exact absurd hstat hs
  · refine .inr (.inr (.inr (.inr (.inr ⟨hstat, ?_, ?_, ?_, ?_, ?_⟩)))) <;> rw [hf]

theorem abortRequestT_delta (r : String) (t : TaskState) (hT : TInv t)
    (hs : t.status ≠ .idle) : TaskDelta t (abortRequestT r t) := by
  rcases abortRequestT_cases r t hT with hf | ⟨hstat, -, hf⟩ | ⟨hstat, -⟩
  · exact .inl hf
  · refine .inr (.inl ⟨hstat, ?_, ?_, ?_, ?_⟩) <;> rw [hf] <;> exact hstat
  · exact absurd hstat hs

theorem opSettleT_delta (o : Except Err String) (t : TaskState) (hT : TInv t) :
    TaskDelta t (opSettleT o t) := by
  rcases opSettleT_cases o t hT with hf | ⟨hstat, -, ⟨v, -, hf⟩ | ⟨e, -, -, hf⟩ | ⟨r2, -, hf⟩⟩
  · exact .inl hf
  · refine .inr (.inr (.inl ⟨hstat, ?_, ?_, ?_, ?_⟩)) <;> rw [hf]
  · refine .inr (.inr (.inr (.inl ⟨hstat, ?_, ?_, ?_, ?_⟩))) <;> rw [hf]
  · refine .inr (.inr (.inr (.inr (.inl ⟨hstat, ?_, ?_, ?_, ?_⟩)))) <;> rw [hf]

theorem abortSettleT_delta (t : TaskState) (hT : TInv t) :
    TaskDelta t (abortSettleT t) := by
  rcases abortSettleT_cases t hT with hf | ⟨hstat, -, r, hf⟩
  · exact .inl hf
  · refine .inr (.inr (.inr (.inr (.inl ⟨hstat, ?_, ?_, ?_, ?_⟩)))) <;> rw [hf]

theorem stepOK_refl (s : Sys) (hS : SysInv s) : StepOK s s :=
  ⟨hS, rfl, fun _ hd => hd, fun _ _ hg => hg⟩

theorem jobOnFulfill_mode (tid : Nat) (j : JobState) :
    (jobOnFulfill tid j).mode = j.mode := by
  by_cases hl : j.lastPending = some tid
  · rw [jobOnFulfill_clear tid j hl]
  · rw [jobOnFulfill_keep tid j hl]

theorem jobOnReject_mode (tid : Nat) (j : JobState) :
    (jobOnReject tid j).mode = j.mode := by
  by_cases hl : j.lastPending = some tid
  · rw [jobOnReject_clear tid j hl]
  · rw [jobOnReject_keep tid j hl]

theorem jobOnAbort_mode (tid : Nat) (j : JobState) :
    (jobOnAbort tid j).mode = j.mode := by
  by_cases hl : j.lastPending = some tid
  · rw [jobOnAbort_clear tid j hl]
  · rw [jobOnAbort_keep tid j hl]

theorem jobOnFulfill_status_iff (tid : Nat) (j : JobState)
    (h : j.status = .pending ↔ j.lastPending.isSome) :
    ((jobOnFulfill tid j).status = .pending ↔
      (jobOnFulfill tid j).lastPending.isSome) := by
  by_cases hl : j.lastPending = some tid
  · rw [jobOnFulfill_clear tid j hl]; simp
  · rw [jobOnFulfill_keep tid j hl]; simpa using h

theorem jobOnReject_status_iff (tid : Nat) (j : JobState)
    (h : j.status = .pending ↔ j.lastPending.isSome) :
    ((jobOnReject tid j).status = .pending ↔
      (jobOnReject tid j).lastPending.isSome) := by
  by_cases hl : j.lastPending = some tid
  · rw [jobOnReject_clear tid j hl]; simp
  · rw [jobOnReject_keep tid j hl]; simpa using h

theorem jobOnAbort_status_iff (tid : Nat) (j : JobState)
    (h : j.status = .pending ↔ j.lastPending.isSome) :
    ((jobOnAbort tid j).status = .pending ↔
      (jobOnAbort tid j).lastPending.isSome) := by
  by_cases hl : j.lastPending = some tid
  · rw [jobOnAbort_clear tid j hl]; simp
  · rw [jobOnAbort_keep tid j hl]; simpa using h

theorem jobOnFulfill_lastRejected (tid : Nat) (j : JobState) :
    (jobOnFulfill tid j).lastRejected = j.lastRejected := by
  by_cases hl : j.lastPending = some tid
  · rw [jobOnFulfill_clear tid j hl]
  · rw [jobOnFulfill_keep tid j hl]

theorem jobOnFulfill_lastFulfilled (tid : Nat) (j : JobState) :
    (jobOnFulfill tid j).lastFulfilled = some tid := by
  by_cases hl : j.lastPending = some tid
  · rw [jobOnFulfill_clear tid j hl]
  · rw [jobOnFulfill_keep tid j hl]

theorem jobOnReject_lastFulfilled (tid : Nat) (j : JobState) :
    (jobOnReject tid j).lastFulfilled = j.lastFulfilled := by
  by_cases hl : j.lastPending = some tid
  · rw [jobOnReject_clear tid j hl]
  · rw [jobOnReject_keep tid j hl]

theorem jobOnReject_lastRejected (tid : Nat) (j : JobState) :
    (jobOnReject tid j).lastRejected = some tid := by
  by_cases hl : j.lastPending = some tid
  · rw [jobOnReject_clear tid j hl]
  · rw [jobOnReject_keep tid j hl]

theorem jobOnAbort_lastFulfilled (tid : Nat) (j : JobState) :
    (jobOnAbort tid j).lastFulfilled = j.lastFulfilled := by
  by_cases hl : j.lastPending = some tid
  · rw [jobOnAbort_clear tid j hl]
  · rw [jobOnAbort_keep tid j hl]

theorem jobOnAbort_lastRejected (tid : Nat) (j : JobState) :
    (jobOnAbort tid j).lastRejected = j.lastRejected := by
  by_cases hl : j.lastPending = some tid
  · rw [jobOnAbort_clear tid j hl]
  · rw [jobOnAbort_keep tid j hl]

/-- Applying one of the task-level functions to any task of an invariant
system preserves every system property. -/
theorem stepOK_apply (s : Sys) (hS : SysInv s) (tid : Nat)
    (f : TaskState → TaskState)
    (hd : ∀ t, TInv t → t.status ≠ .idle → TaskDelta t (f t))
    (hi : ∀ t, TInv t → TInv (f t)) :
    StepOK s (applyTaskF f tid s) := by
  rcases h : s.tasks[tid]? with - | t
  · rw [applyTaskF_none _ _ _ h]; exact stepOK_refl s hS
  · have hmem := List.getElem?_mem h
    have hT := hS.tasks_inv t hmem
    have hlt : tid < s.tasks.length := lt_of_getElem?_some _ _ _ h
    have hT2 := hi t hT
    have hstar := hS.tasks_started t hmem
    rcases hd t hT hstar with hf | hcase | hcase | hcase | hcase | hcase
    · rw [applyTaskF_unchanged _ _ _ _ h hf]; exact stepOK_refl s hS
    · -- pending task acquiring the signal: no delivery, stays pending
      obtain ⟨hp, hp2, e1, e2, e3⟩ := hcase
      rw [applyTaskF_no_delivery _ _ _ _ h e1 e2 e3]
      refine ⟨⟨hS.status_iff, ?_, tasks_inv_set s hS tid _ hT2,
        tasks_started_set s hS tid _ (by simp [hp2]), ?_, ?_⟩, rfl, ?_, ?_⟩
      · intro p hp3
        by_cases hpt : tid = p
        · subst hpt
          exact ⟨f t, getElem?_set_self' _ _ _ hlt, hp2⟩
        · obtain ⟨tp, htp, hps⟩ := hS.lastPending_pending p hp3
          exact ⟨tp, by rw [getElem?_set_ne' _ _ _ _ hpt]; exact htp, hps⟩
      · intro q hq
        exact slot_inv_set (fun u => u.deliveredFulfill) _ _ _ _ h (le_of_eq e2.symm)
          q (hS.lastFulfilled_inv q hq)
      · intro q hq
        exact slot_inv_set (fun u => u.deliveredReject) _ _ _ _ h (le_of_eq e3.symm)
          q (hS.lastRejected_inv q hq)
      · intro hm hD i u hu hupend
        by_cases hit : tid = i
        · subst hit
          exact hD tid t h hp
        · rw [getElem?_set_ne' _ _ _ _ hit] at hu
          exact hD i u hu hupend
      · intro a n hg
        obtain ⟨ta, hta, ha1, ha2, ha3, ha4⟩ := hg
        have hat : ¬tid = a := by
          intro hq; subst hq
          rw [h] at hta
          injection hta with hq2
          rw [hq2, ha1] at hp
          cases hp
        refine ⟨ta, ?_, ha1, ha2, ha3, ha4⟩
        rw [getElem?_set_ne' _ _ _ _ hat]; exact hta
    · -- pending task fulfilling: delivers one fulfill event
      obtain ⟨hp, hp2, e1, e2, e3⟩ := hcase
      rw [applyTaskF_deliver_fulfill _ _ _ _ h e1 e2 e3]
      refine ⟨⟨jobOnFulfill_status_iff tid s.job hS.status_iff, ?_,
        tasks_inv_set s hS tid _ hT2, tasks_started_set s hS tid _ (by simp [hp2]),
        ?_, ?_⟩, jobOnFulfill_mode tid s.job, ?_, ?_⟩
      · intro p hp3
        by_cases hl : s.job.lastPending = some tid
        · rw [jobOnFulfill_clear _ _ hl] at hp3; cases hp3
        · rw [jobOnFulfill_keep _ _ hl] at hp3
          obtain ⟨tp, htp, hps⟩ := hS.lastPending_pending p hp3
          have hpt : ¬tid = p := fun hq => hl (hq ▸ hp3)
          exact ⟨tp, by rw [getElem?_set_ne' _ _ _ _ hpt]; exact htp, hps⟩
      · intro q hq
        rw [jobOnFulfill_lastFulfilled] at hq
        injection hq with hq2
        subst hq2
        exact ⟨f t, getElem?_set_self' _ _ _ hlt, by rw [e2]; omega⟩
      · intro q hq
        rw [jobOnFulfill_lastRejected] at hq
        exact slot_inv_set (fun u => u.deliveredReject) _ _ _ _ h (le_of_eq e3.symm)
          q (hS.lastRejected_inv q hq)
      · intro hm hD i u hu hupend
        by_cases hit : tid = i
        · subst hit
          rw [getElem?_set_self' _ _ _ hlt] at hu
          injection hu with hu2
          rw [← hu2, hp2] at hupend
          cases hupend
        · rw [getElem?_set_ne' _ _ _ _ hit] at hu
          have h1 := hD i u hu hupend
          have h2 := hD tid t h hp
          rw [h1] at h2
          injection h2 with h3
          exact absurd h3.symm hit
      · intro a n hg
        obtain ⟨ta, hta, ha1, ha2, ha3, ha4⟩ := hg
        have hat : ¬tid = a := by
          intro hq; subst hq
          rw [h] at hta
          injection hta with hq2
          rw [hq2, ha1] at hp
          cases hp
        refine ⟨ta, ?_, ha1, ha2, ha3, ha4⟩
        rw [getElem?_set_ne' _ _ _ _ hat]; exact hta
    · -- pending task rejecting: delivers one reject event
      obtain ⟨hp, hp2, e1, e2, e3⟩ := hcase
      rw [applyTaskF_deliver_reject _ _ _ _ h e1 e2 e3]
      refine ⟨⟨jobOnReject_status_iff tid s.job hS.status_iff, ?_,
        tasks_inv_set s hS tid _ hT2, tasks_started_set s hS tid _ (by simp [hp2]),
        ?_, ?_⟩, jobOnReject_mode tid s.job, ?_, ?_⟩
      · intro p hp3
        by_cases hl : s.job.lastPending = some tid
        · rw [jobOnReject_clear _ _ hl] at hp3; cases hp3
        · rw [jobOnReject_keep _ _ hl] at hp3
          obtain ⟨tp, htp, hps⟩ := hS.lastPending_pending p hp3
          have hpt : ¬tid = p := fun hq => hl (hq ▸ hp3)
          exact ⟨tp, by rw [getElem?_set_ne' _ _ _ _ hpt]; exact htp, hps⟩
      · intro q hq
        rw [jobOnReject_lastFulfilled] at hq
        exact slot_inv_set (fun u => u.deliveredFulfill) _ _ _ _ h (le_of_eq e2.symm)
          q (hS.lastFulfilled_inv q hq)
      · intro q hq
        rw [jobOnReject_lastRejected] at hq
        injection hq with hq2
        subst hq2
        exact ⟨f t, getElem?_set_self' _ _ _ hlt, by rw [e3]; omega⟩
      · intro hm hD i u hu hupend
        by_cases hit : tid = i
        · subst hit
          rw [getElem?_set_self' _ _ _ hlt] at hu
          injection hu with hu2
          rw [← hu2, hp2] at hupend
          cases hupend
        · rw [getElem?_set_ne' _ _ _ _ hit] at hu
          have h1 := hD i u hu hupend
          have h2 := hD tid t h hp
          rw [h1] at h2
          injection h2 with h3
          exact absurd h3.symm hit
      · intro a n hg
        obtain ⟨ta, hta, ha1, ha2, ha3, ha4⟩ := hg
        have hat : ¬tid = a := by
          intro hq; subst hq
          rw [h] at hta
          injection hta with hq2
          rw [hq2, ha1] at hp
          cases hp
        refine ⟨ta, ?_, ha1, ha2, ha3, ha4⟩
        rw [getElem?_set_ne' _ _ _ _ hat]; exact hta
    · -- pending task aborting: delivers one abort event
      obtain ⟨hp, hp2, e1, e2, e3⟩ := hcase
      rw [applyTaskF_deliver_abort _ _ _ _ h e1 e2 e3]
      refine ⟨⟨jobOnAbort_status_iff tid s.job hS.status_iff, ?_,
        tasks_inv_set s hS tid _ hT2, tasks_started_set s hS tid _ (by simp [hp2]),
        ?_, ?_⟩, jobOnAbort_mode tid s.job, ?_, ?_⟩
      · intro p hp3
        by_cases hl : s.job.lastPending = some tid
        · rw [jobOnAbort_clear _ _ hl] at hp3; cases hp3
        · rw [jobOnAbort_keep _ _ hl] at hp3
          obtain ⟨tp, htp, hps⟩ := hS.lastPending_pending p hp3
          have hpt : ¬tid = p := fun hq => hl (hq ▸ hp3)
          exact ⟨tp, by rw [getElem?_set_ne' _ _ _ _ hpt]; exact htp, hps⟩
      · intro q hq
        rw [jobOnAbort_lastFulfilled] at hq
        exact slot_inv_set (fun u => u.deliveredFulfill) _ _ _ _ h (le_of_eq e2.symm)
          q (hS.lastFulfilled_inv q hq)
      · intro q hq
        rw [jobOnAbort_lastRejected] at hq
        exact slot_inv_set (fun u => u.deliveredReject) _ _ _ _ h (le_of_eq e3.symm)
          q (hS.lastRejected_inv q hq)
      · intro hm hD i u hu hupend
        by_cases hit : tid = i
        · subst hit
          rw [getElem?_set_self' _ _ _ hlt] at hu
          injection hu with hu2
          rw [← hu2, hp2] at hupend
          cases hupend
        · rw [getElem?_set_ne' _ _ _ _ hit] at hu
          have h1 := hD i u hu hupend
          have h2 := hD tid t h hp
          rw [h1] at h2
          injection h2 with h3
          exact absurd h3.symm hit
      · intro a n hg
        obtain ⟨ta, hta, ha1, ha2, ha3, ha4⟩ := hg
        have hat : ¬tid = a := by
          intro hq; subst hq
          rw [h] at hta
          injection hta with hq2
          rw [hq2, ha1] at hp
          cases hp
        refine ⟨ta, ?_, ha1, ha2, ha3, ha4⟩
        rw [getElem?_set_ne' _ _ _ _ hat]; exact hta
    · -- aborted task absorbing a repeated dispatch: no delivery
      obtain ⟨hab, hab2, efc, e1, e2, e3⟩ := hcase
      rw [applyTaskF_no_delivery _ _ _ _ h e1 e2 e3]
      refine ⟨⟨hS.status_iff, ?_, tasks_inv_set s hS tid _ hT2,
        tasks_started_set s hS tid _ (by simp [hab2]), ?_, ?_⟩, rfl, ?_, ?_⟩
      · intro p hp3
        obtain ⟨tp, htp, hps⟩ := hS.lastPending_pending p hp3
        have hpt : ¬tid = p := by
          intro hq; subst hq
          rw [h] at htp
          injection htp with hq2
          rw [← hq2, hab] at hps
          cases hps
        exact ⟨tp, by rw [getElem?_set_ne' _ _ _ _ hpt]; exact htp, hps⟩
      · intro q hq
        exact slot_inv_set (fun u => u.deliveredFulfill) _ _ _ _ h (le_of_eq e2.symm)
          q (hS.lastFulfilled_inv q hq)
      · intro q hq
        exact slot_inv_set (fun u => u.deliveredReject) _ _ _ _ h (le_of_eq e3.symm)
          q (hS.lastRejected_inv q hq)
      · intro hm hD i u hu hupend
        by_cases hit : tid = i
        · subst hit
          rw [getElem?_set_self' _ _ _ hlt] at hu
          injection hu with hu2
          rw [← hu2, hab2] at hupend
          cases hupend
        · rw [getElem?_set_ne' _ _ _ _ hit] at hu
          exact hD i u hu hupend
      · intro a n hg
        obtain ⟨ta, hta, ha1, ha2, ha3, ha4⟩ := hg
        by_cases hat : tid = a
        · subst hat
          rw [h] at hta
          injection hta with hq2
          refine ⟨f t, getElem?_set_self' _ _ _ hlt, hab2, ?_, ?_, ?_⟩
          · rw [efc, hq2, ha2]
          · rw [e2, hq2, ha3]
          · rw [e3, hq2, ha4]
        · refine ⟨ta, ?_, ha1, ha2, ha3, ha4⟩
          rw [getElem?_set_ne' _ _ _ _ hat]; exact hta

/-!  The perform step. -/

theorem getElem?_append_left' (l l2 : List TaskState) (n : Nat) (h : n < l.length) :
    (l ++ l2)[n]? = l[n]? := by
  simp [List.getElem?_append, h]

theorem set_append_last' (l : List TaskState) (a b : TaskState) (i : Nat)
    (hi : i = l.length) : (l ++ [a]).set i b = l ++ [b] := by
  subst hi
  apply List.ext_getElem?
  intro n
  by_cases hn : l.length = n
  · subst hn
    rw [getElem?_set_self' _ _ _ (by simp)]
    simp
  · rw [getElem?_set_ne' _ _ _ _ hn]
    by_cases h2 : n < l.length
    · rw [getElem?_append_left' _ _ _ h2, getElem?_append_left' _ _ _ h2]
    · obtain ⟨m, hm2⟩ : ∃ m, n - l.length = m + 1 := ⟨n - l.length - 1, by omega⟩
      rw [List.getElem?_append_right (by omega), List.getElem?_append_right (by omega),
        hm2]
      rfl

theorem set_append_last (l : List TaskState) (a b : TaskState) :
    (l ++ [a]).set l.length b = l ++ [b] :=
  set_append_last' l a b l.length rfl

theorem set_append_left (l : List TaskState) (a b : TaskState) (p : Nat)
    (hp : p < l.length) : (l ++ [a]).set p b = l.set p b ++ [a] := by
  apply List.ext_getElem?
  intro n
  by_cases hn : p = n
  · subst hn
    rw [getElem?_set_self' _ _ _ (by simp; omega)]
    rw [getElem?_append_left' _ _ _ (by simpa using hp)]
    rw [getElem?_set_self' _ _ _ hp]
  · rw [getElem?_set_ne' _ _ _ _ hn]
    by_cases h2 : n < l.length
    · rw [getElem?_append_left' _ _ _ h2, getElem?_append_left' _ _ _ (by simpa using h2),
        getElem?_set_ne' _ _ _ _ hn]
    · rw [List.getElem?_append_right (by omega), List.getElem?_append_right (by simp; omega)]
      simp

theorem performSys_none_eq (s : Sys) (h : s.job.lastPending = none) :
    performSys s =
      { job := { s.job with performCount := s.job.performCount + 1
                            lastPending := some s.tasks.length
                            status := .pending }
        tasks := s.tasks ++ [executeT instrumentedTask] } := by
  have h1 : ((s.tasks ++ [instrumentedTask] : List TaskState))[s.tasks.length]? =
      some instrumentedTask := by simp
  simp only [performSys, h]
  rw [applyTaskF_no_delivery _ _ _ _ h1 (by decide) (by decide) (by decide),
    set_append_last]

theorem performSys_drop_eq (s : Sys) (p : Nat) (h : s.job.lastPending = some p)
    (hm : s.job.mode = .drop) (hp : p < s.tasks.length) :
    performSys s =
      { job := { s.job with performCount := s.job.performCount + 1
                            lastAborted := some s.tasks.length }
        tasks := s.tasks ++ [abortRequestT defaultReason instrumentedTask] } := by
  have h1 : ((s.tasks ++ [instrumentedTask] : List TaskState))[s.tasks.length]? =
      some instrumentedTask := by simp
  simp only [performSys, h, hm]
  rw [applyTaskF_deliver_abort _ _ _ _ h1 (by decide) (by decide) (by decide),
    set_append_last,
    jobOnAbort_keep _ _ (by simp [h]; omega)]

theorem performSys_restart_eq (s : Sys) (p : Nat) (h : s.job.lastPending = some p)
    (hm : s.job.mode = .restart) (tp : TaskState) (htp : s.tasks[p]? = some tp)
    (hpend : tp.status = .pending) (hTp : TInv tp) :
    performSys s =
      { job := { s.job with performCount := s.job.performCount + 1
                            lastPending := some s.tasks.length
                            status := .pending }
        tasks := s.tasks.set p (abortRequestT defaultReason tp) ++
          [executeT instrumentedTask] } := by
  have hp : p < s.tasks.length := lt_of_getElem?_some _ _ _ htp
  have h1 : ((s.tasks ++ [instrumentedTask] : List TaskState))[p]? = some tp := by
    rw [getElem?_append_left' _ _ _ hp]; exact htp
  have hnd : (abortRequestT defaultReason tp).deliveredAbort = tp.deliveredAbort ∧
      (abortRequestT defaultReason tp).deliveredFulfill = tp.deliveredFulfill ∧
      (abortRequestT defaultReason tp).deliveredReject = tp.deliveredReject := by
    rcases abortRequestT_cases defaultReason tp hTp with hf | ⟨-, -, hf⟩ | ⟨hstat, -⟩
    · rw [hf]; exact ⟨rfl, rfl, rfl⟩
    · rw [hf]; exact ⟨rfl, rfl, rfl⟩
    · rw [hstat] at hpend; cases hpend
  have h2 : ((s.tasks ++ [instrumentedTask]).set p
      (abortRequestT defaultReason tp))[s.tasks.length]? = some instrumentedTask := by
    rw [getElem?_set_ne' _ _ _ _ (by omega)]
    simp
  simp only [performSys, h, hm]
  rw [applyTaskF_no_delivery _ _ _ _ h1 hnd.1 hnd.2.1 hnd.2.2]
  rw [applyTaskF_no_delivery _ _ _ _ h2 (by decide) (by decide) (by decide)]
  rw [set_append_left _ _ _ _ hp, set_append_last' _ _ _ _ (by simp)]

theorem startedFresh_status : (executeT instrumentedTask).status = .pending := by decide

theorem droppedFresh_status :
    (abortRequestT defaultReason instrumentedTask).status = .aborted := by decide

theorem startedFresh_TInv : TInv (executeT instrumentedTask) :=
  executeT_TInv _ instrumentedTask_TInv

theorem droppedFresh_TInv : TInv (abortRequestT defaultReason instrumentedTask) :=
  abortRequestT_TInv _ _ instrumentedTask_TInv

theorem abortRequestT_keeps_pending (r : String) (tp : TaskState) (hTp : TInv tp)
    (hpend : tp.status = .pending) : (abortRequestT r tp).status = .pending := by
  rcases abortRequestT_cases r tp hTp with hf | ⟨-, -, hf⟩ | ⟨hstat, -⟩
  · rw [hf]; exact hpend
  · rw [hf]; exact hpend
  · rw [hstat] at hpend; cases hpend

theorem getElem?_append_singleton_length (l : List TaskState) (x : TaskState)
    (i : Nat) (hi : i = l.length) : (l ++ [x])[i]? = some x := by
  subst hi; simp

theorem slot_inv_append (g : TaskState → Nat) (l : List TaskState) (x : TaskState)
    (q : Nat) (hex : ∃ u, l[q]? = some u ∧ 0 < g u) :
    ∃ u, (l ++ [x])[q]? = some u ∧ 0 < g u := by
  obtain ⟨u, hu, hgu⟩ := hex
  exact ⟨u, by
    rw [getElem?_append_left' _ _ _ (lt_of_getElem?_some _ _ _ hu)]; exact hu, hgu⟩

theorem stepOK_perform (s : Sys) (hS : SysInv s) : StepOK s (performSys s) := by
  rcases h : s.job.lastPending with - | p
  · rw [performSys_none_eq s h]
    refine ⟨⟨?_, ?_, ?_, ?_, ?_, ?_⟩, rfl, ?_, ?_⟩
    · simp
    · intro q hq
      simp only [Option.some.injEq] at hq
      refine ⟨executeT instrumentedTask, ?_, startedFresh_status⟩
      rw [← hq]
      exact getElem?_append_singleton_length _ _ _ rfl
    · intro u hu
      rcases List.mem_append.mp hu with hu | hu
      · exact hS.tasks_inv u hu
      · rw [List.mem_singleton] at hu
        rw [hu]
        exact startedFresh_TInv
    · intro u hu
      rcases List.mem_append.mp hu with hu | hu
      · exact hS.tasks_started u hu
      · rw [List.mem_singleton] at hu
        rw [hu, startedFresh_status]
        simp
    · intro q hq
      exact slot_inv_append (fun u => u.deliveredFulfill) _ _ q
        (hS.lastFulfilled_inv q hq)
    · intro q hq
      exact slot_inv_append (fun u => u.deliveredReject) _ _ q
        (hS.lastRejected_inv q hq)
    · intro hm hD i u hu hupend
      by_cases hit : i < s.tasks.length
      · rw [getElem?_append_left' _ _ _ hit] at hu
        have := hD i u hu hupend
        rw [h] at this
        cases this
      · by_cases hieq : i = s.tasks.length
        · subst hieq
          rfl
        · rw [List.getElem?_append_right (by omega)] at hu
          obtain ⟨m, hm2⟩ : ∃ m, i - s.tasks.length = m + 1 :=
            ⟨i - s.tasks.length - 1, by omega⟩
          rw [hm2] at hu
          cases hu
    · intro a n hg
      obtain ⟨ta, hta, ha1, ha2, ha3, ha4⟩ := hg
      have halt : a < s.tasks.length := lt_of_getElem?_some _ _ _ hta
      refine ⟨ta, ?_, ha1, ha2, ha3, ha4⟩
      rw [getElem?_append_left' _ _ _ halt]
      exact hta
  · obtain ⟨tp, htp, hpend⟩ := hS.lastPending_pending p h
    have hTp := hS.tasks_inv tp (List.getElem?_mem htp)
    have hp : p < s.tasks.length := lt_of_getElem?_some _ _ _ htp
    rcases hmode : s.job.mode with - | -
    · rw [performSys_drop_eq s p h hmode hp]
      refine ⟨⟨?_, ?_, ?_, ?_, ?_, ?_⟩, rfl, ?_, ?_⟩
      · simpa using hS.status_iff
      · intro q hq
        obtain ⟨tq, htq, hqs⟩ := hS.lastPending_pending q hq
        have hqlt : q < s.tasks.length := lt_of_getElem?_some _ _ _ htq
        refine ⟨tq, ?_, hqs⟩
        rw [getElem?_append_left' _ _ _ hqlt]
        exact htq
      · intro u hu
        rcases List.mem_append.mp hu with hu | hu
        · exact hS.tasks_inv u hu
        · rw [List.mem_singleton] at hu
          rw [hu]
          exact droppedFresh_TInv
      · intro u hu
        rcases List.mem_append.mp hu with hu | hu
        · exact hS.tasks_started u hu
        · rw [List.mem_singleton] at hu
          rw [hu, droppedFresh_status]
          simp
      · intro q hq
        exact slot_inv_append (fun u => u.deliveredFulfill) _ _ q
          (hS.lastFulfilled_inv q hq)
      · intro q hq
        exact slot_inv_append (fun u => u.deliveredReject) _ _ q
          (hS.lastRejected_inv q hq)
      · intro hm hD i u hu hupend
        by_cases hit : i < s.tasks.length
        · rw [getElem?_append_left' _ _ _ hit] at hu
          exact hD i u hu hupend
        · by_cases hieq : i = s.tasks.length
          · subst hieq
            rw [getElem?_append_singleton_length _ _ _ rfl] at hu
            injection hu with hu2
            rw [← hu2, droppedFresh_status] at hupend
            cases hupend
          · rw [List.getElem?_append_right (by omega)] at hu
            obtain ⟨m, hm2⟩ : ∃ m, i - s.tasks.length = m + 1 :=
              ⟨i - s.tasks.length - 1, by omega⟩
            rw [hm2] at hu
            cases hu
      · intro a n hg
        obtain ⟨ta, hta, ha1, ha2, ha3, ha4⟩ := hg
        have halt : a < s.tasks.length := lt_of_getElem?_some _ _ _ hta
        refine ⟨ta, ?_, ha1, ha2, ha3, ha4⟩
        rw [getElem?_append_left' _ _ _ halt]
        exact hta
    · rw [performSys_restart_eq s p h hmode tp htp hpend hTp]
      have hnd : (abortRequestT defaultReason tp).deliveredFulfill = tp.deliveredFulfill ∧
          (abortRequestT defaultReason tp).deliveredReject = tp.deliveredReject := by
        rcases abortRequestT_cases defaultReason tp hTp with hf | ⟨-, -, hf⟩ | ⟨hstat, -⟩
        · rw [hf]; exact ⟨rfl, rfl⟩
        · rw [hf]; exact ⟨rfl, rfl⟩
        · rw [hstat] at hpend; cases hpend
      refine ⟨⟨?_, ?_, ?_, ?_, ?_, ?_⟩, rfl, ?_, ?_⟩
      · simp
      · intro q hq
        simp only [Option.some.injEq] at hq
        refine ⟨executeT instrumentedTask, ?_, startedFresh_status⟩
        rw [← hq]
        exact getElem?_append_singleton_length _ _ _ (by simp)
      · intro u hu
        rcases List.mem_append.mp hu with hu | hu
        · rcases List.mem_or_eq_of_mem_set hu with hu | hu
          · exact hS.tasks_inv u hu
          · rw [hu]
            exact abortRequestT_TInv _ _ hTp
        · rw [List.mem_singleton] at hu
          rw [hu]
          exact startedFresh_TInv
      · intro u hu
        rcases List.mem_append.mp hu with hu | hu
        · rcases mem_set_cases _ _ _ _ hu with hu | ⟨j, hj, hju⟩
          · rw [hu, abortRequestT_keeps_pending _ _ hTp hpend]
            simp
          · exact hS.tasks_started u (List.getElem?_mem hju)
        · rw [List.mem_singleton] at hu
          rw [hu, startedFresh_status]
          simp
      · intro q hq
        exact slot_inv_append (fun u => u.deliveredFulfill) _ _ q
          (slot_inv_set (fun u => u.deliveredFulfill) _ _ _ _ htp
            (le_of_eq hnd.1.symm) q (hS.lastFulfilled_inv q hq))
      · intro q hq
        exact slot_inv_append (fun u => u.deliveredReject) _ _ q
          (slot_inv_set (fun u => u.deliveredReject) _ _ _ _ htp
            (le_of_eq hnd.2.symm) q (hS.lastRejected_inv q hq))
      · intro hm hD
        rw [hmode] at hm
        cases hm
      · intro a n hg
        obtain ⟨ta, hta, ha1, ha2, ha3, ha4⟩ := hg
        have halt : a < s.tasks.length := lt_of_getElem?_some _ _ _ hta
        have hap : ¬p = a := by
          intro hq
          subst hq
          rw [htp] at hta
          injection hta with hq2
          rw [hq2, ha1] at hpend
          cases hpend
        refine ⟨ta, ?_, ha1, ha2, ha3, ha4⟩
        rw [getElem?_append_left' _ _ _ (by simpa using halt),
          getElem?_set_ne' _ _ _ _ hap]
        exact hta

/-- Every event preserves all system properties. -/
theorem stepOK_step (e : Ev) (s : Sys) (hS : SysInv s) : StepOK s (stepEv e s) := by
  cases e with
  | perform => exact stepOK_perform s hS
  | opSettle tid o =>
    exact stepOK_apply s hS tid _ (fun t hT _ => opSettleT_delta o t hT)
      (fun t hT => opSettleT_TInv o t hT)
  | abortSettle tid =>
    exact stepOK_apply s hS tid _ (fun t hT _ => abortSettleT_delta t hT)
      (fun t hT => abortSettleT_TInv t hT)
  | taskAbortReq tid r =>
    exact stepOK_apply s hS tid _ (fun t hT hs => abortRequestT_delta r t hT hs)
      (fun t hT => abortRequestT_TInv r t hT)
  | taskExecute tid =>
    exact stepOK_apply s hS tid _ (fun t hT hs => executeT_delta t hT hs)
      (fun t hT => executeT_TInv t hT)
  | jobAbort r =>
    simp only [stepEv]
    rcases h : s.job.lastPending with - | p
    · exact stepOK_refl s hS
    · exact stepOK_apply s hS p _ (fun t hT hs => abortRequestT_delta r t hT hs)
        (fun t hT => abortRequestT_TInv r t hT)

theorem runEvs_cons (e : Ev) (evs : List Ev) (s : Sys) :
    runEvs (e :: evs) s = runEvs evs (stepEv e s) := rfl

/-- All system properties hold along any trace. -/
theorem runEvs_OK (evs : List Ev) (s : Sys) (hS : SysInv s) :
    SysInv (runEvs evs s) ∧ (runEvs evs s).job.mode = s.job.mode ∧
    (s.job.mode = .drop → DropUnique s → DropUnique (runEvs evs s)) ∧
    (∀ a n, AbortedGhost a n s → AbortedGhost a n (runEvs evs s)) := by
  induction evs generalizing s with
  | nil => exact ⟨hS, rfl, fun _ hd => hd, fun _ _ hg => hg⟩
  | cons e evs ih =>
    simp only [runEvs_cons]
    obtain ⟨h1, h2, h3, h4⟩ := stepOK_step e s hS
    obtain ⟨g1, g2, g3, g4⟩ := ih (stepEv e s) h1
    refine ⟨g1, by rw [g2, h2], ?_, fun a n hg => g4 a n (h4 a n hg)⟩
    intro hm hd
    exact g3 (by rw [h2]; exact hm) (h3 hm hd)

theorem runEvs_init_SysInv (evs : List Ev) (m : JobMode) :
    SysInv (runEvs evs (initSys m)) :=
  (runEvs_OK evs (initSys m) (initSys_SysInv m)).1

theorem runEvs_init_mode (evs : List Ev) (m : JobMode) :
    (runEvs evs (initSys m)).job.mode = m :=
  (runEvs_OK evs (initSys m) (initSys_SysInv m)).2.1

theorem runEvs_init_DropUnique (evs : List Ev) :
    DropUnique (runEvs evs (initSys .drop)) :=
  (runEvs_OK evs (initSys .drop) (initSys_SysInv .drop)).2.2.1 rfl
    (initSys_DropUnique .drop)

theorem wRun_settled (evs : List WEv) (w : WSt) (r : Except Err String)
    (h : w.settled = some r) : (wRun evs w).settled = some r := by
  induction evs generalizing w with
  | nil => exact h
  | cons e evs ih =>
    refine ih (wStep e w) ?_
    cases e with
    | sigFire r2 =>
      by_cases ha : w.listenerAttached = true
      · simp [wStep, ha, h]
      · simp only [wStep, Bool.not_eq_true] at ha ⊢
        rw [if_neg (by simp [ha])]
        exact h
    | opDone o => simp [wStep, h]

/-!  Frame lemmas for the dispatch and settlement helpers. -/

theorem dispatchAbort_frame (t : TaskState) :
    (dispatchAbort t).status = t.status ∧ (dispatchAbort t).value = t.value ∧
    (dispatchAbort t).error = t.error ∧ (dispatchAbort t).memoized = t.memoized ∧
    (dispatchAbort t).factoryCalls = t.factoryCalls := by
  by_cases ha : t.abortListenerActive = true
  · rw [dispatchAbort_active _ ha]; exact ⟨rfl, rfl, rfl, rfl, rfl⟩
  · rw [dispatchAbort_inactive _ (by simpa using ha)]; exact ⟨rfl, rfl, rfl, rfl, rfl⟩

theorem dispatchFulfill_frame (t : TaskState) :
    (dispatchFulfill t).status = t.status ∧ (dispatchFulfill t).value = t.value ∧
    (dispatchFulfill t).error = t.error ∧ (dispatchFulfill t).memoized = t.memoized ∧
    (dispatchFulfill t).factoryCalls = t.factoryCalls := by
  by_cases ha : t.fulfillListenerActive = true
  · rw [dispatchFulfill_active _ ha]; exact ⟨rfl, rfl, rfl, rfl, rfl⟩
  · rw [dispatchFulfill_inactive _ (by simpa using ha)]; exact ⟨rfl, rfl, rfl, rfl, rfl⟩

theorem dispatchReject_frame (t : TaskState) :
    (dispatchReject t).status = t.status ∧ (dispatchReject t).value = t.value ∧
    (dispatchReject t).error = t.error ∧ (dispatchReject t).memoized = t.memoized ∧
    (dispatchReject t).factoryCalls = t.factoryCalls := by
  by_cases ha : t.rejectListenerActive = true
  · rw [dispatchReject_active _ ha]; exact ⟨rfl, rfl, rfl, rfl, rfl⟩
  · rw [dispatchReject_inactive _ (by simpa using ha)]; exact ⟨rfl, rfl, rfl, rfl, rfl⟩

theorem handleFailureT_facts (e : Err) (t : TaskState) :
    (handleFailureT e t).value = t.value ∧ (handleFailureT e t).error = some e ∧
    (handleFailureT e t).memoized = t.memoized ∧
    (handleFailureT e t).factoryCalls = t.factoryCalls ∧
    (handleFailureT e t).status =
      (if e.isTaskAbort then TStatus.aborted else TStatus.rejected) := by
  rcases he : e.isTaskAbort with - | -
  · rw [handleFailureT_reject e t he]
    obtain ⟨f1, f2, f3, f4, f5⟩ := dispatchReject_frame
      { t with error := some e, status := .rejected }
    rw [f1, f2, f3, f4, f5]
    simp [he]
  · rw [handleFailureT_abort e t he]
    obtain ⟨f1, f2, f3, f4, f5⟩ := dispatchAbort_frame
      { t with error := some e, status := .aborted }
    rw [f1, f2, f3, f4, f5]
    simp [he]

theorem handleSuccessT_facts (v : String) (t : TaskState) :
    (handleSuccessT v t).value = some v ∧ (handleSuccessT v t).error = t.error ∧
    (handleSuccessT v t).memoized = t.memoized ∧
    (handleSuccessT v t).factoryCalls = t.factoryCalls ∧
    (handleSuccessT v t).status = .fulfilled := by
  rw [handleSuccessT_eq]
  obtain ⟨f1, f2, f3, f4, f5⟩ := dispatchFulfill_frame
    { t with value := some v, status := .fulfilled }
  rw [f1, f2, f3, f4, f5]
  exact ⟨rfl, rfl, rfl, rfl, rfl⟩

theorem executeT_memoized_true (t : TaskState) : (executeT t).memoized = true := by
  by_cases hm : t.memoized = true
  · rw [executeT_memoized t hm]; exact hm
  · replace hm : t.memoized = false := by simpa using hm
    by_cases hs : t.signalAborted = true
    · rcases hr : t.signalReason with - | e
      · simp only [executeT, hm, hs, hr, Bool.false_eq_true, if_false, if_true,
          Option.getD_none, ite_true, ite_false]
        rw [(handleFailureT_facts _ _).2.2.1]
      · rw [executeT_sig t e hm hs hr, (handleFailureT_facts _ _).2.2.1]
    · rw [executeT_start t hm (by simpa using hs)]

theorem executeT_idem (t : TaskState) : executeT (executeT t) = executeT t :=
  executeT_memoized _ (executeT_memoized_true t)

theorem executeT_sig_factory (t : TaskState) (hs : t.signalAborted = true) :
    (executeT t).factoryCalls = t.factoryCalls := by
  by_cases hm : t.memoized = true
  · rw [executeT_memoized t hm]
  · replace hm : t.memoized = false := by simpa using hm
    rcases hr : t.signalReason with - | e
    · simp only [executeT, hm, hs, hr, Bool.false_eq_true, if_false, if_true,
        Option.getD_none, ite_true, ite_false]
      rw [(handleFailureT_facts _ _).2.2.2.1]
    · rw [executeT_sig t e hm hs hr, (handleFailureT_facts _ _).2.2.2.1]

theorem abortRequestT_pending_sig (r : String) (t : TaskState)
    (h : t.status = .pending) : (abortRequestT r t).signalAborted = true := by
  rw [abortRequestT_pending r t h]
  by_cases hs : t.signalAborted = true
  · rw [fireSignal_fired _ _ hs]; exact hs
  · rw [fireSignal_idle _ _ (by simpa using hs)]

theorem abortSettleT_status_of (t : TaskState) (hpend : t.status = .pending)
    (hs : t.signalAborted = true) (e : Err) (hr : t.signalReason = some e)
    (he : e.isTaskAbort = true) : (abortSettleT t).status = .aborted := by
  rw [abortSettleT_fire t e hpend hs hr, (handleFailureT_facts _ _).2.2.2.2,
    if_pos he]

theorem abortSettleT_settles (t : TaskState) (hT : TInv t) (hp : t.status = .pending)
    (hs : t.signalAborted = true) :
    ∃ r, abortSettleT t =
      { t with error := some (Err.taskAbort r), status := .aborted
               abortDispatches := t.abortDispatches + 1
               deliveredAbort := t.deliveredAbort + 1
               abortListenerActive := false } := by
  obtain ⟨hda, -, -⟩ := pending_delivered t hT hp
  obtain ⟨e, hsr⟩ := Option.isSome_iff_exists.mp (hT.signal_iff.mp hs)
  have hta : e.isTaskAbort = true := hT.signal_reason e hsr
  obtain ⟨r, rfl⟩ : ∃ r, e = Err.taskAbort r := by
    cases e with
    | taskAbort r => exact ⟨r, rfl⟩
    | app c => simp [Err.isTaskAbort] at hta
  refine ⟨r, ?_⟩
  rw [abortSettleT_fire t _ hp hs hsr, handleFailureT_abort _ _ hta,
    dispatchAbort_active _ (by simp [hT.abortListener_iff.mpr hda])]

theorem performSys_count (s : Sys) (hS : SysInv s) :
    (performSys s).job.performCount = s.job.performCount + 1 ∧
    (performSys s).tasks.length = s.tasks.length + 1 ∧
    (performSys s).job.status = .pending := by
  rcases h : s.job.lastPending with - | p
  · rw [performSys_none_eq s h]
    exact ⟨rfl, by simp, rfl⟩
  · obtain ⟨tp, htp, hpend⟩ := hS.lastPending_pending p h
    have hTp := hS.tasks_inv tp (List.getElem?_mem htp)
    have hp : p < s.tasks.length := lt_of_getElem?_some _ _ _ htp
    rcases hmode : s.job.mode with - | -
    · rw [performSys_drop_eq s p h hmode hp]
      exact ⟨rfl, by simp, hS.status_iff.mpr (by simp [h])⟩
    · rw [performSys_restart_eq s p h hmode tp htp hpend hTp]
      exact ⟨rfl, by simp, rfl⟩

/-!  Claim theorems. -/

/-- C3 counterexample: a Task aborted while Idle and then performed for the
first time memoizes the handle but never invokes its operation factory —
refuting the claim that the first `perform()`/`execute()` call invokes the
factory exactly once over the Task's life. -/
theorem c3_counterexample :
    (abortRequestT defaultReason freshTask).status = .aborted ∧
    (executeT (abortRequestT defaultReason freshTask)).memoized = true ∧
    (executeT (abortRequestT defaultReason freshTask)).factoryCalls = 0 := by
  decide

/-- C3 amended: `perform()`/`execute()` is idempotent and memoizes on the
first call; on a fresh Task the first call invokes the factory exactly once
and the Task becomes Pending, but when the Task's signal is already
triggered the factory is never invoked; over any reachable system state the
factory of every Task has run at most once. -/
theorem c3_execute_idempotent :
    (∀ t, executeT (executeT t) = executeT t) ∧
    (∀ t, (executeT t).memoized = true) ∧
    ((executeT freshTask).factoryCalls = 1 ∧ (executeT freshTask).status = .pending) ∧
    (∀ t, t.signalAborted = true → (executeT t).factoryCalls = t.factoryCalls) ∧
    (∀ (evs : List Ev) (m : JobMode) (i : Nat) (t : TaskState),
      (runEvs evs (initSys m)).tasks[i]? = some t → t.factoryCalls ≤ 1) := by
  refine ⟨executeT_idem, executeT_memoized_true, by decide,
    fun t hs => executeT_sig_factory t hs, ?_⟩
  intro evs m i t h
  exact ((runEvs_init_SysInv evs m).tasks_inv t (List.getElem?_mem h)).factory_le

/-- C3 witness: the amended theorem applied at an aborted-while-idle fresh
Task and at the first task of a concrete one-perform trace. -/
theorem c3_execute_idempotent_witness :
    (executeT (abortRequestT defaultReason freshTask)).factoryCalls =
      (abortRequestT defaultReason freshTask).factoryCalls ∧
    (executeT instrumentedTask).factoryCalls ≤ 1 :=
  ⟨c3_execute_idempotent.2.2.2.1 _ (by decide),
   c3_execute_idempotent.2.2.2.2 [.perform] .drop 0 _ (by decide)⟩

/-- C4 counterexample: a Pending Task whose memoized promise goes on to
reject with a non-cancellation application error: `abort()` is callable
(the Task is Pending), its internal wait observes the application error,
and `abort()`'s returned promise rejects with it — refuting the claim that
the promise returned by `Task.abort` never rejects. -/
theorem c4_counterexample :
    (executeT freshTask).status = .pending ∧
    abortAwaitT (executeT freshTask) (some (.error (.app 7))) = some (.app 7) := by
  decide

/-- C4 amended: `abort()`'s returned promise resolves whenever its internal
wait observes no memoized promise, a fulfillment, or the expected
cancellation rejection (a `TaskAbortError`); a non-cancellation error
observed during that wait is rethrown to `abort()`'s caller (it rejects
exactly when the memoized promise rejects with an application error while
the Task was Idle or Pending).  Abort still converges: an Idle Task is
immediately Aborted, and a Pending Task settles Aborted when the abort
rejection is delivered through the race. -/
theorem c4_abort_await (t : TaskState) (o : Option (Except Err String)) :
    (o = none → abortAwaitT t o = none) ∧
    (∀ v, o = some (.ok v) → abortAwaitT t o = none) ∧
    (∀ r, o = some (.error (.taskAbort r)) → abortAwaitT t o = none) ∧
    (∀ e, abortAwaitT t o = some e →
      (t.status = .idle ∨ t.status = .pending) ∧
      ∃ c : Nat, o = some (.error (.app c)) ∧ e = .app c) ∧
    (∀ r, t.status = .idle → t.signalAborted = false →
      (abortRequestT r t).status = .aborted) ∧
    (∀ r, t.status = .pending → t.signalAborted = false →
      (abortRequestT r t).signalAborted = true ∧
      (abortSettleT (abortRequestT r t)).status = .aborted) := by
  refine ⟨?_, ?_, ?_, ?_, ?_, ?_⟩
  · intro h
    subst h
    unfold abortAwaitT
    split <;> rfl
  · intro v h
    subst h
    unfold abortAwaitT
    split <;> rfl
  · intro r h
    subst h
    unfold abortAwaitT
    split
    · rfl
    · simp [Err.isTaskAbort]
  · intro e he
    unfold abortAwaitT at he
    by_cases hg : t.status ≠ .idle ∧ t.status ≠ .pending
    · rw [if_pos hg] at he
      cases he
    · rw [if_neg hg] at he
      have hst : t.status = .idle ∨ t.status = .pending := by
        by_cases h1 : t.status = .idle
        · exact .inl h1
        · right
          by_cases h2 : t.status = .pending
          · exact h2
          · exact absurd ⟨h1, h2⟩ hg
      rcases o with - | o2
      · simp at he
      · cases o2 with
        | ok v => simp at he
        | error e2 =>
          cases e2 with
          | taskAbort r => simp [Err.isTaskAbort] at he
          | app c =>
            simp only [Err.isTaskAbort, Bool.false_eq_true, if_false, ite_false,
              Option.some.injEq] at he
            exact ⟨hst, c, rfl, he.symm⟩
  · intro r hidle hs
    rw [abortRequestT_idle r t hidle hs, fireSignal_idle _ _ hs,
      (handleFailureT_facts _ _).2.2.2.2]
    simp [Err.isTaskAbort]
  · intro r hpend hs
    refine ⟨abortRequestT_pending_sig r t hpend, ?_⟩
    rw [abortRequestT_pending r t hpend, fireSignal_idle _ _ hs]
    exact abortSettleT_status_of
      { t with signalAborted := true, signalReason := some (Err.taskAbort r)
               fulfillListenerActive := false, rejectListenerActive := false }
      hpend rfl (Err.taskAbort r) rfl rfl

/-- C4 witness: the amended theorem applied at a concrete pending Task with
no rejection to observe, and at the same Task for convergence. -/
theorem c4_abort_await_witness :
    abortAwaitT (executeT freshTask) none = none ∧
    (abortRequestT defaultReason (executeT freshTask)).signalAborted = true ∧
    (abortSettleT (abortRequestT defaultReason (executeT freshTask))).status =
      .aborted :=
  ⟨(c4_abort_await (executeT freshTask) none).1 rfl,
   ((c4_abort_await (executeT freshTask) none).2.2.2.2.2 defaultReason
     (by decide) (by decide)).1,
   ((c4_abort_await (executeT freshTask) none).2.2.2.2.2 defaultReason
     (by decide) (by decide)).2⟩

/-- C6 counterexample: after `perform()` twice on a Drop-mode Job the second
Task is a reachable Task whose status is Aborted while `isSettled` is
`false` — refuting the claim that a Task reports as settled in all three
terminal states, in particular when Aborted. -/
theorem c6_counterexample :
    ∃ t, (runEvs [.perform, .perform] (initSys .drop)).tasks[1]? = some t ∧
      t.status = .aborted ∧ isSettledT t = false := by
  decide

/-- C6 amended: Fulfilled, Rejected and Aborted are the terminal statuses,
but `isSettled` (src/task.ts `[Fulfilled, Rejected].includes(status)`) is
`true` exactly when the status is Fulfilled or Rejected; an Aborted Task
reports `isAborted` but not `isSettled`. -/
theorem c6_settled_iff (t : TaskState) :
    (isSettledT t = true ↔ t.status = .fulfilled ∨ t.status = .rejected) ∧
    (t.status = .aborted → isSettledT t = false ∧ isAbortedT t = true) := by
  constructor
  · rcases h : t.status <;> simp [isSettledT, h]
  · intro h
    simp [isSettledT, isAbortedT, h]

/-- C6 witness: the amended theorem applied at a concrete Aborted task. -/
theorem c6_settled_iff_witness :
    isSettledT { status := TStatus.aborted } = false ∧
    isAbortedT { status := TStatus.aborted } = true :=
  (c6_settled_iff { status := TStatus.aborted }).2 rfl

/-- C7 counterexample: when the operation settles first, the composed
promise is settled with the operation's outcome but the abort listener is
still attached to the signal — refuting the claim that once either side
wins the listener is detached rather than leaked.  (The `once: true`
registration removes it only when the signal eventually fires.) -/
theorem c7_counterexample :
    (wRun [.opDone (.ok "X")] (workInit none)).settled = some (.ok "X") ∧
    (wRun [.opDone (.ok "X")] (workInit none)).listenerAttached = true := by
  decide

/-- C7 amended: the composed result settles exactly once — the first
settlement is final under any further events; a signal already triggered at
the call rejects immediately with its reason and never attaches the
listener; a signal firing before the operation settles wins the race and
the once-registered listener detaches as it fires; an operation settling
first wins the race but leaves the abort listener attached to the signal,
and only a later signal firing detaches it (without changing the outcome). -/
theorem c7_work_race (evs : List WEv) (w : WSt) (r : Except Err String) :
    (w.settled = some r → (wRun evs w).settled = some r) ∧
    (∀ e, workInit (some e) =
      { settled := some (.error e), listenerAttached := false }) ∧
    (∀ r2, wStep (.sigFire r2) (workInit none) =
      { settled := some (.error r2), listenerAttached := false }) ∧
    (∀ o, wStep (.opDone o) (workInit none) =
      { settled := some o, listenerAttached := true }) ∧
    (∀ o r2, wStep (.sigFire r2) (wStep (.opDone o) (workInit none)) =
      { settled := some o, listenerAttached := false }) := by
  refine ⟨fun h => wRun_settled evs w r h, fun e => rfl, fun r2 => rfl,
    fun o => rfl, fun o r2 => ?_⟩
  simp [wStep, workInit]

/-- C7 witness: the amended theorem applied at a concrete settled race
state. -/
theorem c7_work_race_witness :
    (wRun [.sigFire (.taskAbort "r")]
      { settled := some (.ok "v"), listenerAttached := true }).settled =
      some (.ok "v") :=
  (c7_work_race [.sigFire (.taskAbort "r")]
    { settled := some (.ok "v"), listenerAttached := true } (.ok "v")).1 rfl

/-- C8 counterexample: a Task aborted while Idle dispatches "abort" once;
calling `perform()`/`execute()` on it afterwards runs `#handleFailure`
again and dispatches a second "abort" event — refuting the claim that
exactly one notification of the matching kind is dispatched and never more
than one per kind.  (The once-registered listener still receives only one
delivery.) -/
theorem c8_counterexample :
    (abortRequestT defaultReason instrumentedTask).abortDispatches = 1 ∧
    (executeT (abortRequestT defaultReason instrumentedTask)).abortDispatches = 2 ∧
    (executeT (abortRequestT defaultReason instrumentedTask)).deliveredAbort = 1 := by
  decide

/-- C8 amended: each of a Job's once-registered listeners is delivered at
most one notification per kind over a Task's lifetime; on transition into
Aborted exactly one abort notification is delivered (the abort listener is
not scoped to the Task's signal); on settlement into Fulfilled or Rejected
while the signal has not fired, exactly one notification of the matching
kind is delivered — but when the operation wins the race and the signal
fires before the settlement continuation runs, the signal-scoped
fulfill/reject listeners have already been removed and zero notifications
are delivered.  The internal "abort" dispatch is also not at-most-once: it
occurs twice when a Task aborted while Idle is later performed. -/
theorem c8_delivery_at_most_once (evs : List Ev) (m : JobMode) (i : Nat)
    (t : TaskState) (h : (runEvs evs (initSys m)).tasks[i]? = some t) :
    (t.deliveredAbort ≤ 1 ∧ t.deliveredFulfill ≤ 1 ∧ t.deliveredReject ≤ 1) ∧
    (t.status = .aborted →
      t.deliveredAbort = 1 ∧ t.deliveredFulfill = 0 ∧ t.deliveredReject = 0) ∧
    (∀ (v : String) (u : TaskState), TInv u → u.status = .pending →
      u.signalAborted = false →
      ((handleSuccessT v u).status = .fulfilled ∧
        (handleSuccessT v u).deliveredFulfill = 1) ∧
      (∀ e : Err, (handleSuccessT v (fireSignal e u)).status = .fulfilled ∧
        (handleSuccessT v (fireSignal e u)).deliveredFulfill = 0)) ∧
    (∀ (e2 : Err) (u : TaskState), TInv u → u.status = .pending →
      u.signalAborted = false → e2.isTaskAbort = false →
      ((handleFailureT e2 u).status = .rejected ∧
        (handleFailureT e2 u).deliveredReject = 1) ∧
      (∀ e : Err, (handleFailureT e2 (fireSignal e u)).status = .rejected ∧
        (handleFailureT e2 (fireSignal e u)).deliveredReject = 0)) := by
  have hT := (runEvs_init_SysInv evs m).tasks_inv t (List.getElem?_mem h)
  have hab := hT.dab_dispatch
  have hfu := hT.dfu_dispatch
  have hre := hT.dre_dispatch
  refine ⟨⟨hT.dab_le, hT.dfu_le, hT.dre_le⟩, ?_, ?_, ?_⟩
  · intro hf
    obtain ⟨-, -, h3, h4, h5, -⟩ := hT.aborted_props hf
    omega
  · intro v u hU hp hs
    obtain ⟨-, hdf, -⟩ := pending_delivered u hU hp
    constructor
    · rw [handleSuccessT_eq,
        dispatchFulfill_active _ (by simp [hU.fulfillListener_iff.mpr ⟨hdf, hs⟩])]
      exact ⟨rfl, by simp [hdf]⟩
    · intro e
      rw [fireSignal_idle e u hs, handleSuccessT_eq,
        dispatchFulfill_inactive _ (by simp)]
      exact ⟨rfl, hdf⟩
  · intro e2 u hU hp hs he2
    obtain ⟨-, -, hdr⟩ := pending_delivered u hU hp
    constructor
    · rw [handleFailureT_reject e2 u he2,
        dispatchReject_active _ (by simp [hU.rejectListener_iff.mpr ⟨hdr, hs⟩])]
      exact ⟨rfl, by simp [hdr]⟩
    · intro e
      rw [fireSignal_idle e u hs, handleFailureT_reject _ _ he2,
        dispatchReject_inactive _ (by simp)]
      exact ⟨rfl, hdr⟩

/-- C8 witness: the amended theorem applied at the concrete dropped second
Task of a Drop-mode double perform, and at a concrete started Task whose
operation fulfills after the signal fired (zero fulfill deliveries). -/
theorem c8_delivery_at_most_once_witness :
    ((abortRequestT defaultReason instrumentedTask).deliveredAbort = 1 ∧
     (abortRequestT defaultReason instrumentedTask).deliveredFulfill = 0 ∧
     (abortRequestT defaultReason instrumentedTask).deliveredReject = 0) ∧
    ((handleSuccessT "X" (fireSignal (Err.taskAbort defaultReason)
        (executeT instrumentedTask))).status = .fulfilled ∧
     (handleSuccessT "X" (fireSignal (Err.taskAbort defaultReason)
        (executeT instrumentedTask))).deliveredFulfill = 0) :=
  ⟨(c8_delivery_at_most_once [.perform, .perform] .drop 1 _ (by decide)).2.1
     (by decide),
   ((c8_delivery_at_most_once [.perform, .perform] .drop 1
      (abortRequestT defaultReason instrumentedTask) (by decide)).2.2.1
      "X" (executeT instrumentedTask) startedFresh_TInv (by decide)
      (by decide)).2 (Err.taskAbort defaultReason)⟩

/-- C9: on a Drop-mode Job whose operation resolves "X" one time unit
later, two immediate `perform()` calls leave: the first Task Fulfilled with
value "X", the second Task Aborted, `performCount = 2`, `lastFulfilled`
the first Task and `lastAborted` the second. -/
theorem c9_drop_scenario :
    (runEvs [.perform, .perform, .opSettle 0 (.ok "X")]
      (initSys .drop)).job.performCount = 2 ∧
    (runEvs [.perform, .perform, .opSettle 0 (.ok "X")]
      (initSys .drop)).job.lastFulfilled = some 0 ∧
    (runEvs [.perform, .perform, .opSettle 0 (.ok "X")]
      (initSys .drop)).job.lastAborted = some 1 ∧
    (∃ t, (runEvs [.perform, .perform, .opSettle 0 (.ok "X")]
      (initSys .drop)).tasks[0]? = some t ∧
      t.status = .fulfilled ∧ t.value = some "X") ∧
    (∃ t, (runEvs [.perform, .perform, .opSettle 0 (.ok "X")]
      (initSys .drop)).tasks[1]? = some t ∧ t.status = .aborted) := by
  decide

/-- C10: `#handleSuccess` writes `value` and leaves `error` unchanged;
`#handleFailure` writes `error` and leaves `value` unchanged; consequently
in every reachable state a Rejected or Aborted Task still has its initial
`null` value, and a Fulfilled Task has a value — no settlement writes both
fields. -/
theorem c10_settlement_frames :
    (∀ v t, (handleSuccessT v t).value = some v ∧
      (handleSuccessT v t).error = t.error) ∧
    (∀ e t, (handleFailureT e t).error = some e ∧
      (handleFailureT e t).value = t.value) ∧
    (∀ (evs : List Ev) (m : JobMode) (i : Nat) (u : TaskState),
      (runEvs evs (initSys m)).tasks[i]? = some u →
      (u.status = .rejected ∨ u.status = .aborted) → u.value = none) ∧
    (∀ (evs : List Ev) (m : JobMode) (i : Nat) (u : TaskState),
      (runEvs evs (initSys m)).tasks[i]? = some u →
      u.status = .fulfilled → u.value.isSome) := by
  refine ⟨fun v t => ⟨(handleSuccessT_facts v t).1, (handleSuccessT_facts v t).2.1⟩,
    fun e t => ⟨(handleFailureT_facts e t).2.1, (handleFailureT_facts e t).1⟩,
    ?_, ?_⟩
  · intro evs m i u h hst
    have hT := (runEvs_init_SysInv evs m).tasks_inv u (List.getElem?_mem h)
    rcases hst with hst | hst
    · exact (hT.rejected_props hst).2.2.2.1
    · exact (hT.aborted_props hst).2.1
  · intro evs m i u h hst
    have hT := (runEvs_init_SysInv evs m).tasks_inv u (List.getElem?_mem h)
    exact (hT.fulfilled_props hst).1

/-- C10 witness: the reachable-state conjuncts applied at the concrete
aborted second Task and fulfilled first Task of a Drop-mode run. -/
theorem c10_settlement_frames_witness :
    (abortRequestT defaultReason instrumentedTask).value = none ∧
    (opSettleT (Except.ok "X") (executeT instrumentedTask)).value.isSome :=
  ⟨c10_settlement_frames.2.2.1 [.perform, .perform] .drop 1 _ (by decide)
    (.inr (by decide)),
   c10_settlement_frames.2.2.2 [.perform, .opSettle 0 (.ok "X")] .drop 0 _
    (by decide) (by decide)⟩

/-- C5: in every reachable state of a Job of either mode, the Job status is
Pending exactly when `lastPending` is set and Idle exactly when it is
unset; at most one Task is `lastPending` at any time; and the Job has no
terminal state — from any reachable state `perform()` still runs, creating
a new Task, incrementing `performCount` and putting the Job in Pending. -/
theorem c5_job_state_machine (evs : List Ev) (m : JobMode) :
    let s := runEvs evs (initSys m)
    (s.job.status = .pending ↔ s.job.lastPending.isSome) ∧
    (s.job.status = .idle ↔ s.job.lastPending = none) ∧
    (∀ i j, s.job.lastPending = some i → s.job.lastPending = some j → i = j) ∧
    (stepEv .perform s).job.performCount = s.job.performCount + 1 ∧
    (stepEv .perform s).tasks.length = s.tasks.length + 1 ∧
    (stepEv .perform s).job.status = .pending := by
  intro s
  have hS : SysInv s := runEvs_init_SysInv evs m
  obtain ⟨h1, h2, h3⟩ := performSys_count s hS
  refine ⟨hS.status_iff, ?_, ?_, h1, h2, h3⟩
  · constructor
    · intro h
      rcases hL : s.job.lastPending with - | q
      · rfl
      · have := hS.status_iff.mpr (by simp [hL])
        rw [h] at this
        cases this
    · intro h
      rcases hJ : s.job.status with - | -
      · rfl
      · have := hS.status_iff.mp hJ
        rw [h] at this
        simp at this
  · intro i j hi hj
    rw [hi] at hj
    injection hj

/-- C5 witness: the theorem applied after one perform on a Drop-mode Job,
discharging the uniqueness hypotheses at the concrete `lastPending`. -/
theorem c5_job_state_machine_witness :
    (runEvs [Ev.perform] (initSys .drop)).job.status = .pending ∧
    (0 : Nat) = 0 :=
  ⟨(c5_job_state_machine [Ev.perform] .drop).1.mpr (by decide),
   (c5_job_state_machine [Ev.perform] .drop).2.2.1 0 0 (by decide) (by decide)⟩

/-- C1: for a Drop-mode Job, in every reachable state at most one Task is
Pending; a `perform()` call made while a Task `p` is `lastPending` appends a
new Task that is immediately Aborted with its operation factory never
invoked — in the step itself and in every continuation — while the existing
pending Task is left untouched and remains `lastPending`. -/
theorem c1_drop_mode (evs : List Ev) (p : Nat)
    (h : (runEvs evs (initSys .drop)).job.lastPending = some p) :
    let s := runEvs evs (initSys .drop)
    let tid := s.tasks.length
    (∀ (i : Nat) (u : TaskState) (j : Nat) (v : TaskState),
      s.tasks[i]? = some u → s.tasks[j]? = some v →
      u.status = .pending → v.status = .pending → i = j) ∧
    (stepEv .perform s).tasks[tid]? =
      some (abortRequestT defaultReason instrumentedTask) ∧
    (abortRequestT defaultReason instrumentedTask).status = .aborted ∧
    (abortRequestT defaultReason instrumentedTask).factoryCalls = 0 ∧
    (stepEv .perform s).tasks[p]? = s.tasks[p]? ∧
    (stepEv .perform s).job.lastPending = some p ∧
    (∀ (evs2 : List Ev) (t2 : TaskState),
      (runEvs evs2 (stepEv .perform s)).tasks[tid]? = some t2 →
      t2.status = .aborted ∧ t2.factoryCalls = 0) := by
  intro s tid
  have hS : SysInv s := runEvs_init_SysInv evs .drop
  have hD : DropUnique s := runEvs_init_DropUnique evs
  have hmode : s.job.mode = .drop := runEvs_init_mode evs .drop
  obtain ⟨tp, htp, hpend⟩ := hS.lastPending_pending p h
  have hp : p < s.tasks.length := lt_of_getElem?_some _ _ _ htp
  have hstep : stepEv .perform s = performSys s := rfl
  refine ⟨?_, ?_, by decide, by decide, ?_, ?_, ?_⟩
  · intro i u j v hu hv hup hvp
    have h1 := hD i u hu hup
    have h2 := hD j v hv hvp
    rw [h1] at h2
    injection h2
  · rw [hstep, performSys_drop_eq s p h hmode hp]
    exact getElem?_append_singleton_length _ _ _ rfl
  · rw [hstep, performSys_drop_eq s p h hmode hp]
    exact getElem?_append_left' _ _ _ hp
  · rw [hstep, performSys_drop_eq s p h hmode hp]
    exact h
  · intro evs2 t2 ht2
    have hS2 : SysInv (stepEv .perform s) := (stepOK_perform s hS).1
    have hg : AbortedGhost tid 0 (stepEv .perform s) := by
      refine ⟨abortRequestT defaultReason instrumentedTask, ?_, by decide,
        by decide, by decide, by decide⟩
      rw [hstep, performSys_drop_eq s p h hmode hp]
      exact getElem?_append_singleton_length _ _ _ rfl
    obtain ⟨t3, ht3, h1, h2, -, -⟩ :=
      (runEvs_OK evs2 (stepEv .perform s) hS2).2.2.2 tid 0 hg
    rw [ht2] at ht3
    injection ht3 with ht4
    rw [ht4]
    exact ⟨h1, h2⟩

/-- C1 witness: the theorem applied right after one perform on a Drop-mode
Job, with Task 0 as the concrete `lastPending`. -/
theorem c1_drop_mode_witness :
    (stepEv .perform (runEvs [Ev.perform] (initSys .drop))).job.lastPending =
      some 0 :=
  (c1_drop_mode [Ev.perform] 0 (by decide)).2.2.2.2.2.1

/-- C2: for a Restart-mode Job with Task `a` as `lastPending`, `perform()`
triggers `a`'s signal without awaiting its settlement (it is still Pending
when `perform()` returns), and makes the new Task `b` the sole
`lastPending` with the Job Pending; when `a`'s abort settlement is later
delivered it sets only `lastAborted`, leaving `lastPending`, the Job
status, `lastFulfilled`, `lastRejected` and `lastSettled` untouched; and in
every continuation `lastFulfilled` and `lastRejected` never refer to `a`. -/
theorem c2_restart_mode (evs : List Ev) (a : Nat)
    (h : (runEvs evs (initSys .restart)).job.lastPending = some a) :
    let s := runEvs evs (initSys .restart)
    let b := s.tasks.length
    let s2 := stepEv .perform s
    (∃ ta2, s2.tasks[a]? = some ta2 ∧ ta2.signalAborted = true ∧
      ta2.status = .pending) ∧
    s2.job.lastPending = some b ∧ s2.job.status = .pending ∧
    (let s3 := stepEv (.abortSettle a) s2
     (∃ ta3, s3.tasks[a]? = some ta3 ∧ ta3.status = .aborted) ∧
     s3.job.lastAborted = some a ∧
     s3.job.lastPending = some b ∧
     s3.job.status = .pending ∧
     s3.job.lastFulfilled = s2.job.lastFulfilled ∧
     s3.job.lastRejected = s2.job.lastRejected ∧
     s3.job.lastSettled = s2.job.lastSettled ∧
     (∀ evs2, (runEvs evs2 s3).job.lastFulfilled ≠ some a ∧
              (runEvs evs2 s3).job.lastRejected ≠ some a)) := by
  intro s b s2
  have hS : SysInv s := runEvs_init_SysInv evs .restart
  have hmode : s.job.mode = .restart := runEvs_init_mode evs .restart
  obtain ⟨tp, htp, hpend⟩ := hS.lastPending_pending a h
  have hTp := hS.tasks_inv tp (List.getElem?_mem htp)
  have hp : a < s.tasks.length := lt_of_getElem?_some _ _ _ htp
  have hstep : s2 = performSys s := rfl
  have hperf := performSys_restart_eq s a h hmode tp htp hpend hTp
  have h2a : s2.tasks[a]? = some (abortRequestT defaultReason tp) := by
    rw [hstep, hperf]
    rw [getElem?_append_left' _ _ _ (by simpa using hp)]
    exact getElem?_set_self' _ _ _ hp
  have hta2sig : (abortRequestT defaultReason tp).signalAborted = true :=
    abortRequestT_pending_sig _ tp hpend
  have hta2pend : (abortRequestT defaultReason tp).status = .pending :=
    abortRequestT_keeps_pending _ tp hTp hpend
  have hS2 : SysInv s2 := (stepOK_perform s hS).1
  have hTa2 : TInv (abortRequestT defaultReason tp) :=
    hS2.tasks_inv _ (List.getElem?_mem h2a)
  obtain ⟨r, hsettle⟩ := abortSettleT_settles _ hTa2 hta2pend hta2sig
  have hlp2 : s2.job.lastPending = some b := by rw [hstep, hperf]
  have hab : ¬b = a := by omega
  refine ⟨⟨abortRequestT defaultReason tp, h2a, hta2sig, hta2pend⟩,
    hlp2, by rw [hstep, hperf], ?_⟩
  intro s3
  have hs3 : s3 = { job := jobOnAbort a s2.job
                    tasks := s2.tasks.set a (abortSettleT (abortRequestT defaultReason tp)) } := by
    show applyTaskF abortSettleT a s2 = _
    rw [applyTaskF_deliver_abort _ _ _ _ h2a (by rw [hsettle]) (by rw [hsettle])
      (by rw [hsettle])]
  have hkeep : jobOnAbort a s2.job = { s2.job with lastAborted := some a } :=
    jobOnAbort_keep a s2.job (by rw [hlp2]; simp; omega)
  refine ⟨?_, ?_, ?_, ?_, ?_, ?_, ?_, ?_⟩
  · refine ⟨abortSettleT (abortRequestT defaultReason tp), ?_, ?_⟩
    · rw [hs3]
      exact getElem?_set_self' _ _ _ (by rw [hstep, hperf]; simp; omega)
    · rw [hsettle]
  · rw [hs3, hkeep]
  · rw [hs3, hkeep]; exact hlp2
  · rw [hs3, hkeep]; rw [hstep, hperf]
  · rw [hs3, hkeep]
  · rw [hs3, hkeep]
  · rw [hs3, hkeep]
  · intro evs2
    have hS3 : SysInv s3 := (stepOK_step (.abortSettle a) s2 hS2).1
    have hg : AbortedGhost a (abortSettleT (abortRequestT defaultReason tp)).factoryCalls s3 := by
      refine ⟨abortSettleT (abortRequestT defaultReason tp), ?_, ?_, rfl, ?_, ?_⟩
      · rw [hs3]
        exact getElem?_set_self' _ _ _ (by rw [hstep, hperf]; simp; omega)
      · rw [hsettle]
      · rw [hsettle]
        exact (pending_delivered _ hTa2 hta2pend).2.1
      · rw [hsettle]
        exact (pending_delivered _ hTa2 hta2pend).2.2
    obtain ⟨t4, ht4, hab4, -, hdf4, hdr4⟩ :=
      (runEvs_OK evs2 s3 hS3).2.2.2 a _ hg
    have hS4 : SysInv (runEvs evs2 s3) := (runEvs_OK evs2 s3 hS3).1
    constructor
    · intro hcontra
      obtain ⟨u, hu, hdu⟩ := hS4.lastFulfilled_inv a hcontra
      rw [ht4] at hu
      injection hu with hu2
      rw [← hu2, hdf4] at hdu
      omega
    · intro hcontra
      obtain ⟨u, hu, hdu⟩ := hS4.lastRejected_inv a hcontra
      rw [ht4] at hu
      injection hu with hu2
      rw [← hu2, hdr4] at hdu
      omega

/-- C2 witness: the theorem applied right after one perform on a
Restart-mode Job, with Task 0 as the superseded `lastPending` and Task 1 as
its replacement. -/
theorem c2_restart_mode_witness :
    (stepEv .perform (runEvs [Ev.perform] (initSys .restart))).job.lastPending =
      some 1 :=
  (c2_restart_mode [Ev.perform] 0 (by decide)).2.1

end SolidTasks
